import Mathlib

/-!
Shallow embedding of the GRIB2 message/section framing engine of the
`scorix/grib` repository: big-endian integer decoding, the positioned
section framer and message scanner (`reader_at.go`), the sequential
section reader and block assembler (`reader.go`, `section/*.go`), the
lazy Section 7 data handle (`section7`), and the fixed-offset template
extraction of `message.go`.  Bytes are modelled as `Nat` values below
256 inside `List Nat` streams; Go's unsigned wraparound is written out
as `% 2^w` where it matters.
-/

namespace Grib

/-- Big-endian decoding of a 2-byte list (binary.BigEndian.Uint16). -/
def be16 (l : List Nat) : Nat :=
  l.getD 0 0 * 256 + l.getD 1 0

/-- Big-endian decoding of a 4-byte list (binary.BigEndian.Uint32). -/
def be32 (l : List Nat) : Nat :=
  ((l.getD 0 0 * 256 + l.getD 1 0) * 256 + l.getD 2 0) * 256 + l.getD 3 0

/-- Big-endian decoding of an 8-byte list (binary.BigEndian.Uint64). -/
def be64 (l : List Nat) : Nat :=
  ((((((l.getD 0 0 * 256 + l.getD 1 0) * 256 + l.getD 2 0) * 256 + l.getD 3 0) * 256
    + l.getD 4 0) * 256 + l.getD 5 0) * 256 + l.getD 6 0) * 256 + l.getD 7 0

/-- Go's `int32(u)` conversion of a `uint32`: two's-complement reinterpretation. -/
def twos32 (u : Nat) : Int :=
  if u < 2 ^ 31 then (u : Int) else (u : Int) - 2 ^ 32

/-- Go's `int16(u)` conversion of a `uint16`: two's-complement reinterpretation. -/
def twos16 (u : Nat) : Int :=
  if u < 2 ^ 15 then (u : Int) else (u : Int) - 2 ^ 16

/-- Go's `int8(b)` conversion of a byte: two's-complement reinterpretation. -/
def twos8 (u : Nat) : Int :=
  if u < 2 ^ 7 then (u : Int) else (u : Int) - 2 ^ 8

/-- The exact rational value of the IEEE 754 binary32 number whose bit
pattern is the 32-bit word `u` (non-finite patterns are mapped to 0).
This is the reinterpretation the spec mandates for the Section 5
reference value. -/
def ieee32ToRat (u : Nat) : ℚ :=
  let sign : ℚ := if u / 2 ^ 31 % 2 = 1 then -1 else 1
  let expo : Nat := u / 2 ^ 23 % 2 ^ 8
  let frac : Nat := u % 2 ^ 23
  if expo = 255 then 0
  else if expo = 0 then sign * (frac : ℚ) / 2 ^ 23 / 2 ^ 126
  else sign * (1 + (frac : ℚ) / 2 ^ 23) * 2 ^ expo / 2 ^ 127

/-- The sign-magnitude decoding of a 32-bit word, as the spec words it:
`value = (raw & 0x7FFFFFFF) * ((raw & 0x80000000) ? -1 : +1)`.  This is
the specification-side definition, to be compared with the code's
two's-complement `twos32`. -/
def signMag32 (u : Nat) : Int :=
  if u < 2 ^ 31 then (u : Int) else -((u - 2 ^ 31 : Nat) : Int)

/-- The 4 magic bytes `GRIB` that open Section 0. -/
def gribMagic : List Nat := [71, 82, 73, 66]

/-- The 4 magic bytes `7777` that form Section 8. -/
def endMagic : List Nat := [55, 55, 55, 55]

/-- `ReadAt`-style exact read over a byte list: returns the `n` bytes at
`off` when they all exist, `none` (io.EOF) otherwise. -/
def readAtExact (file : List Nat) (off n : Nat) : Option (List Nat) :=
  if off + n ≤ file.length then some ((file.drop off).take n) else none

theorem readAtExact_append {p : List Nat} (s : List Nat) {off n : Nat}
    (h : off + n ≤ p.length) :
    readAtExact (p ++ s) off n = readAtExact p off n := by
  unfold readAtExact
  rw [if_pos h, if_pos (by simp; omega)]
  rw [List.drop_append_of_le_length (by omega), List.take_append_of_le_length]
  simp
  omega

theorem readAtExact_some_length {file : List Nat} {off n : Nat} {l : List Nat}
    (h : readAtExact file off n = some l) : l.length = n := by
  unfold readAtExact at h
  split at h
  · cases h
    simp
    omega
  · cases h

/-- Metadata about a section's location (`reader.SectionInfo`). -/
structure SectionInfo where
  number : Nat
  offset : Nat
  length : Nat
deriving DecidableEq, Repr

/-- The errors the positioned scanner can report
(`fmt.Errorf` sites in `reader_at.go`). -/
inductive ScanError where
  /-- `invalid section length %d at offset %d` -/
  | invalidLength (len off : Nat)
  /-- `failed to read section number at offset %d` -/
  | secNumReadFailed (off : Nat)
  /-- `invalid GRIB marker at offset %d` -/
  | invalidMagic (off : Nat)
  /-- `failed to read Section 0 header at offset %d` -/
  | headerReadFailed (off : Nat)
  /-- out of fuel: models a non-terminating loop, never reached in proofs -/
  | noFuel
deriving DecidableEq, Repr

/-- Result of probing one section boundary. -/
inductive FrameResult where
  | eofBreak
  | err (e : ScanError)
  | frame (secNum len : Nat)
deriving DecidableEq, Repr

/-- The section framer: the `switch` on the 4-byte prefix inside
`scanSectionsInRange` (reader_at.go).  `GRIB` frames Section 0 with
length 16, `7777` frames Section 8 with length 4; otherwise the prefix
is a big-endian u32 length (rejected below 5) and the byte at `off+4`
is taken as the section number. -/
def frameSectionAt (file : List Nat) (off : Nat) : FrameResult :=
  match readAtExact file off 4 with
  | none => .eofBreak
  | some first4 =>
    if first4 = gribMagic then .frame 0 16
    else if first4 = endMagic then .frame 8 4
    else
      let len := be32 first4
      if len < 5 then .err (.invalidLength len off)
      else
        match readAtExact file (off + 4) 1 with
        | none => .err (.secNumReadFailed (off + 4))
        | some b => .frame (b.getD 0 0) len

/-- The scanning loop of `scanSectionsInRange`: walk `[offset, endOffset)`,
framing one section per step, stopping at section number 8 or at the end
of the range (EOF inside the range breaks with the sections seen so far). -/
def scanLoop (file : List Nat) (endOffset : Nat) :
    Nat → Nat → List SectionInfo → Except ScanError (List SectionInfo)
  | 0, _, _ => .error .noFuel
  | fuel + 1, offset, acc =>
    if offset < endOffset then
      match frameSectionAt file offset with
      | .eofBreak => .ok acc.reverse
      | .err e => .error e
      | .frame secNum len =>
        let acc' := ⟨secNum, offset, len⟩ :: acc
        if secNum = 8 then .ok acc'.reverse
        else scanLoop file endOffset fuel (offset + len) acc'
    else .ok acc.reverse

/-- `ReaderAt.scanSectionsInRange`: section index of one message's byte
range. -/
def scanSectionsInRange (file : List Nat) (startOffset endOffset : Nat) :
    Except ScanError (List SectionInfo) :=
  scanLoop file endOffset (endOffset + 1) startOffset []

/-- `reader.MessageInfo`: metadata of one scanned message. -/
structure MessageInfo where
  index : Nat
  offset : Nat
  length : Nat
  discipline : Nat
  edition : Nat
  sections : List SectionInfo
deriving DecidableEq, Repr

/-- The loop body of `ReaderAt.EachMessage`: at each message boundary,
check the `GRIB` magic, read the 16-byte Section 0 header, scan the
message's sections, emit the `MessageInfo` to the callback and either
stop (callback returned false) or advance by the total length.  The
returned list is the trace of callback invocations. -/
def eachMessageLoop (file : List Nat) (fn : Nat → MessageInfo → Bool) :
    Nat → Nat → Nat → Except ScanError (List (Nat × MessageInfo))
  | 0, _, _ => .error .noFuel
  | fuel + 1, offset, messageIndex =>
    match readAtExact file offset 4 with
    | none => .ok []
    | some first4 =>
      if first4 ≠ gribMagic then .error (.invalidMagic offset)
      else
        match readAtExact file offset 16 with
        | none => .error (.headerReadFailed offset)
        | some header =>
          let discipline := header.getD 6 0
          let edition := header.getD 7 0
          let totalLength := be64 (header.drop 8)
          match scanSectionsInRange file offset (offset + totalLength) with
          | .error e => .error e
          | .ok sections =>
            let info : MessageInfo :=
              ⟨messageIndex, offset, totalLength, discipline, edition, sections⟩
            if fn messageIndex info then
              match eachMessageLoop file fn fuel (offset + totalLength)
                  (messageIndex + 1) with
              | .error e => .error e
              | .ok trace => .ok ((messageIndex, info) :: trace)
            else .ok [(messageIndex, info)]

/-- `ReaderAt.EachMessage`, returning the trace of callback invocations. -/
def eachMessageAt (file : List Nat) (fn : Nat → MessageInfo → Bool) :
    Except ScanError (List (Nat × MessageInfo)) :=
  eachMessageLoop file fn (file.length + 1) 0 0

/-- Well-formed layout of the sections of one message after Section 0:
a run of middle sections (big-endian length ≥ 5, section number 1..7,
prefix distinct from both magics) ending in the `7777` end section
exactly at `stop`.  `secs` lists the (number, length) pairs. -/
inductive WFTail (file : List Nat) : Nat → Nat → List (Nat × Nat) → Prop
  | last (off : Nat) (h : readAtExact file off 4 = some endMagic) :
      WFTail file off (off + 4) [(8, 4)]
  | cons (off stop n len : Nat) (first4 : List Nat) (rest : List (Nat × Nat))
      (h4 : readAtExact file off 4 = some first4)
      (hg : first4 ≠ gribMagic) (he : first4 ≠ endMagic)
      (hlen : be32 first4 = len) (hlen5 : 5 ≤ len)
      (hn : readAtExact file (off + 4) 1 = some [n])
      (hn1 : 1 ≤ n) (hn7 : n ≤ 7)
      (htail : WFTail file (off + len) stop rest) :
      WFTail file off stop ((n, len) :: rest)

/-- The section index the scanner computes for a section layout. -/
def infosFrom : Nat → List (Nat × Nat) → List SectionInfo
  | _, [] => []
  | off, (n, len) :: rest => ⟨n, off, len⟩ :: infosFrom (off + len) rest

theorem frameSectionAt_grib {file : List Nat} {off : Nat}
    (h : readAtExact file off 4 = some gribMagic) :
    frameSectionAt file off = .frame 0 16 := by
  unfold frameSectionAt
  rw [h]
  simp

theorem frameSectionAt_end {file : List Nat} {off : Nat}
    (h : readAtExact file off 4 = some endMagic) :
    frameSectionAt file off = .frame 8 4 := by
  unfold frameSectionAt
  rw [h]
  simp [endMagic, gribMagic]

theorem frameSectionAt_mid {file : List Nat} {off : Nat} {first4 : List Nat} {n : Nat}
    (h4 : readAtExact file off 4 = some first4)
    (hg : first4 ≠ gribMagic) (he : first4 ≠ endMagic)
    (hlen5 : 5 ≤ be32 first4)
    (hn : readAtExact file (off + 4) 1 = some [n]) :
    frameSectionAt file off = .frame n (be32 first4) := by
  unfold frameSectionAt
  rw [h4]
  simp only
  rw [if_neg hg, if_neg he, if_neg (by omega), hn]
  rfl

theorem wfTail_stop {file : List Nat} {off stop : Nat} {secs : List (Nat × Nat)}
    (h : WFTail file off stop secs) :
    stop = off + (secs.map Prod.snd).sum := by
  induction h with
  | last off h => simp
  | cons off stop n len first4 rest h4 hg he hlen hlen5 hn hn1 hn7 htail ih =>
    simp [ih]
    omega

theorem wfTail_stop_le {file : List Nat} {off stop : Nat} {secs : List (Nat × Nat)}
    (h : WFTail file off stop secs) : stop ≤ file.length := by
  induction h with
  | last off h =>
    unfold readAtExact at h
    split at h
    · omega
    · cases h
  | cons _ _ _ _ _ _ _ _ _ _ _ _ _ _ _ ih => exact ih

theorem wfTail_len_ge {file : List Nat} {off stop : Nat} {secs : List (Nat × Nat)}
    (h : WFTail file off stop secs) : ∀ p ∈ secs, 4 ≤ p.2 := by
  induction h with
  | last off h => intro p hp; simp at hp; simp [hp]
  | cons off stop n len first4 rest h4 hg he hlen hlen5 hn hn1 hn7 htail ih =>
    intro p hp
    rcases List.mem_cons.mp hp with h1 | h2
    · simp [h1]; omega
    · exact ih p h2

theorem wfTail_ne_nil {file : List Nat} {off stop : Nat} {secs : List (Nat × Nat)}
    (h : WFTail file off stop secs) : secs ≠ [] := by
  cases h <;> simp

theorem wfTail_getLast {file : List Nat} {off stop : Nat} {secs : List (Nat × Nat)}
    (h : WFTail file off stop secs) : secs.getLast? = some (8, 4) := by
  induction h with
  | last off h => rfl
  | cons off stop n len first4 rest h4 hg he hlen hlen5 hn hn1 hn7 htail ih =>
    rcases hrest : rest with _ | ⟨p, r⟩
    · exact absurd hrest (wfTail_ne_nil htail)
    · rw [hrest] at ih
      rw [List.getLast?_cons_cons]
      exact ih

theorem wfTail_length_le {file : List Nat} {off stop : Nat} {secs : List (Nat × Nat)}
    (h : WFTail file off stop secs) : secs.length ≤ (secs.map Prod.snd).sum := by
  induction h with
  | last off h => simp
  | cons off stop n len first4 rest h4 hg he hlen hlen5 hn hn1 hn7 htail ih =>
    simp
    omega

theorem scanLoop_wfTail {file : List Nat} {off stop : Nat} {secs : List (Nat × Nat)}
    (h : WFTail file off stop secs) :
    ∀ fuel, secs.length ≤ fuel → ∀ acc,
      scanLoop file stop fuel off acc = .ok (acc.reverse ++ infosFrom off secs) := by
  induction h with
  | last off h =>
    intro fuel hfuel acc
    match fuel, hfuel with
    | fuel + 1, _ =>
      unfold scanLoop
      rw [if_pos (by omega), frameSectionAt_end h]
      simp [infosFrom]
  | cons off stop n len first4 rest h4 hg he hlen hlen5 hn hn1 hn7 htail ih =>
    intro fuel hfuel acc
    match fuel, hfuel with
    | fuel + 1, hfuel =>
      unfold scanLoop
      have hstop : stop = off + len + (rest.map Prod.snd).sum := wfTail_stop htail
      rw [if_pos (by omega), frameSectionAt_mid h4 hg he (by omega) hn]
      simp only [hlen]
      rw [if_neg (by omega)]
      rw [ih fuel (by simp at hfuel ⊢; omega) _]
      simp [infosFrom]

/-- Layout data of one well-formed message: offset, declared total
length, discipline, edition and the (number, length) pairs of the
sections after Section 0. -/
structure MsgLayout where
  off : Nat
  len : Nat
  disc : Nat
  ed : Nat
  secs : List (Nat × Nat)

/-- The message at `m.off` in `file` matches the layout `m`: a 16-byte
Section 0 header starting with `GRIB` whose total-length field is
`m.len`, followed by a well-formed section run ending exactly at
`m.off + m.len`. -/
def WFMsgAt (file : List Nat) (m : MsgLayout) : Prop :=
  ∃ header, readAtExact file m.off 16 = some header ∧
    header.take 4 = gribMagic ∧
    header.getD 6 0 = m.disc ∧ header.getD 7 0 = m.ed ∧
    be64 (header.drop 8) = m.len ∧
    WFTail file (m.off + 16) (m.off + m.len) m.secs

/-- The `MessageInfo` the scanner produces for layout `m` at message
index `idx`. -/
def infoOfLayout (idx : Nat) (m : MsgLayout) : MessageInfo :=
  ⟨idx, m.off, m.len, m.disc, m.ed, ⟨0, m.off, 16⟩ :: infosFrom (m.off + 16) m.secs⟩

theorem readAtExact_take4 {file : List Nat} {off : Nat} {h16 : List Nat}
    (h : readAtExact file off 16 = some h16) :
    readAtExact file off 4 = some (h16.take 4) := by
  unfold readAtExact at h ⊢
  split at h
  · rw [if_pos (by omega)]
    cases h
    simp [List.take_take]
  · cases h

theorem wfMsg_len_ge {file : List Nat} {m : MsgLayout} (h : WFMsgAt file m) :
    20 ≤ m.len := by
  obtain ⟨header, _, _, _, _, _, htail⟩ := h
  have h1 := wfTail_stop htail
  have h2 := wfTail_length_le htail
  have h3 := wfTail_ne_nil htail
  have : 1 ≤ m.secs.length := by
    cases hs : m.secs
    · exact absurd hs h3
    · simp
  have h4 := wfTail_len_ge htail
  -- every section length is at least 4, and there is at least one section
  have : 4 ≤ (m.secs.map Prod.snd).sum := by
    cases hs : m.secs with
    | nil => exact absurd hs h3
    | cons p rest =>
      have := h4 p (by rw [hs]; exact List.mem_cons_self p rest)
      simp [hs]
      omega
  omega

theorem wfMsg_end_le {file : List Nat} {m : MsgLayout} (h : WFMsgAt file m) :
    m.off + m.len ≤ file.length := by
  obtain ⟨header, _, _, _, _, _, htail⟩ := h
  exact wfTail_stop_le htail

/-- A well-formed message region scans to exactly its section index. -/
theorem scan_wfMsg {file : List Nat} {m : MsgLayout} (h : WFMsgAt file m) :
    scanSectionsInRange file m.off (m.off + m.len) =
      .ok (⟨0, m.off, 16⟩ :: infosFrom (m.off + 16) m.secs) := by
  have hlen20 : 20 ≤ m.len := wfMsg_len_ge h
  obtain ⟨header, h16, hgrib, _, _, _, htail⟩ := h
  unfold scanSectionsInRange
  unfold scanLoop
  rw [if_pos (by omega)]
  have hfr : frameSectionAt file m.off = .frame 0 16 := by
    apply frameSectionAt_grib
    rw [readAtExact_take4 h16, hgrib]
  rw [hfr]
  have hstop := wfTail_stop htail
  have hcnt := wfTail_length_le htail
  simp only [if_neg (by omega : ¬ (0 : Nat) = 8)]
  rw [scanLoop_wfTail htail (m.off + m.len) (by omega) _]
  simp

theorem readAtExact_le {file : List Nat} {off n : Nat} {l : List Nat}
    (h : readAtExact file off n = some l) : off + n ≤ file.length := by
  unfold readAtExact at h
  split at h
  · omega
  · cases h

theorem wfTail_append {p : List Nat} (s : List Nat) {off stop : Nat}
    {secs : List (Nat × Nat)} (h : WFTail p off stop secs) :
    WFTail (p ++ s) off stop secs := by
  induction h with
  | last off h =>
    exact .last off (by rw [readAtExact_append s (readAtExact_le h)]; exact h)
  | cons off stop n len first4 rest h4 hg he hlen hlen5 hn hn1 hn7 htail ih =>
    exact .cons off stop n len first4 rest
      (by rw [readAtExact_append s (readAtExact_le h4)]; exact h4) hg he hlen hlen5
      (by rw [readAtExact_append s (readAtExact_le hn)]; exact hn) hn1 hn7 ih

theorem wfMsg_append {p : List Nat} (s : List Nat) {m : MsgLayout}
    (h : WFMsgAt p m) : WFMsgAt (p ++ s) m := by
  obtain ⟨header, h16, hgrib, hdisc, hed, hbe, htail⟩ := h
  exact ⟨header, by rw [readAtExact_append s (readAtExact_le h16)]; exact h16,
    hgrib, hdisc, hed, hbe, wfTail_append s htail⟩

/-- One iteration of `ReaderAt.EachMessage` over a well-formed message:
the callback is invoked once with the message's info, after which the
loop either stops or continues past the message. -/
theorem eachMessageLoop_step {file : List Nat} {m : MsgLayout}
    (h : WFMsgAt file m) (fn : Nat → MessageInfo → Bool) (fuel idx : Nat) :
    eachMessageLoop file fn (fuel + 1) m.off idx =
      if fn idx (infoOfLayout idx m) then
        match eachMessageLoop file fn fuel (m.off + m.len) (idx + 1) with
        | .error e => .error e
        | .ok t => .ok ((idx, infoOfLayout idx m) :: t)
      else .ok [(idx, infoOfLayout idx m)] := by
  have hscan := scan_wfMsg h
  obtain ⟨header, h16, hgrib, hdisc, hed, hbe, htail⟩ := h
  conv_lhs => rw [eachMessageLoop]
  simp only [readAtExact_take4 h16, hgrib, h16, hbe, hdisc, hed, hscan, infoOfLayout,
    ne_eq, not_true_eq_false, if_false, ite_false]

/-- The file is a well-formed GRIB2 stream from offset `off` to its end:
a run of well-formed messages exactly covering the remaining bytes. -/
inductive WFFileFrom (file : List Nat) : Nat → Prop
  | done : WFFileFrom file file.length
  | step (m : MsgLayout) (off : Nat) (heq : m.off = off) (hm : WFMsgAt file m)
      (hrest : WFFileFrom file (m.off + m.len)) : WFFileFrom file off

/-- The whole byte stream is a well-formed GRIB2 file. -/
def WFFile (file : List Nat) : Prop := WFFileFrom file 0

/-- The invariant claimed for every emitted `MessageInfo`: first section
number 0, last section number 8, section lengths summing to the message
length, and strictly increasing section offsets. -/
def InfoInv (info : MessageInfo) : Prop :=
  info.sections.head?.map SectionInfo.number = some 0 ∧
  info.sections.getLast?.map SectionInfo.number = some 8 ∧
  (info.sections.map SectionInfo.length).sum = info.length ∧
  info.sections.Pairwise (fun a b => a.offset < b.offset)

theorem infosFrom_offset_lb {secs : List (Nat × Nat)} :
    ∀ off, ∀ q ∈ infosFrom off secs, off ≤ q.offset := by
  induction secs with
  | nil => intro off q hq; cases hq
  | cons p rest ih =>
    intro off q hq
    rcases p with ⟨n, len⟩
    rcases List.mem_cons.mp hq with h1 | h2
    · simp [h1]
    · exact le_trans (by omega) (ih (off + len) q h2)

theorem infosFrom_pairwise {secs : List (Nat × Nat)}
    (hlen : ∀ p ∈ secs, 1 ≤ p.2) :
    ∀ off, (infosFrom off secs).Pairwise (fun a b => a.offset < b.offset) := by
  induction secs with
  | nil => intro off; exact List.Pairwise.nil
  | cons p rest ih =>
    intro off
    rcases p with ⟨n, len⟩
    refine List.Pairwise.cons ?_ (ih (fun q hq => hlen q (List.mem_cons_of_mem _ hq)) _)
    intro q hq
    have h1 : off + len ≤ q.offset := infosFrom_offset_lb (off + len) q hq
    have h2 : 1 ≤ len := hlen (n, len) (List.mem_cons_self _ _)
    simp
    omega

theorem infosFrom_map_length {secs : List (Nat × Nat)} :
    ∀ off, (infosFrom off secs).map SectionInfo.length = secs.map Prod.snd := by
  induction secs with
  | nil => intro off; rfl
  | cons p rest ih =>
    intro off
    rcases p with ⟨n, len⟩
    simp [infosFrom, ih]

theorem infosFrom_getLast_number {secs : List (Nat × Nat)}
    (h : secs.getLast? = some (8, 4)) :
    ∀ off, ((infosFrom off secs).getLast?).map SectionInfo.number = some 8 := by
  induction secs with
  | nil => cases h
  | cons p rest ih =>
    intro off
    rcases p with ⟨n, len⟩
    cases rest with
    | nil =>
      simp at h
      simp [infosFrom, h]
    | cons q r =>
      rcases q with ⟨qn, qlen⟩
      rw [List.getLast?_cons_cons] at h
      have := ih h (off + len)
      simp only [infosFrom] at this ⊢
      rw [List.getLast?_cons_cons]
      exact this

theorem infoInv_ofLayout {file : List Nat} {m : MsgLayout}
    (h : WFMsgAt file m) (idx : Nat) : InfoInv (infoOfLayout idx m) := by
  obtain ⟨header, h16, hgrib, hdisc, hed, hbe, htail⟩ := h
  refine ⟨rfl, ?_, ?_, ?_⟩
  · show ((⟨0, m.off, 16⟩ :: infosFrom (m.off + 16) m.secs).getLast?).map
      SectionInfo.number = some 8
    have hlast := wfTail_getLast htail
    have hne := wfTail_ne_nil htail
    cases hsec : m.secs with
    | nil => exact absurd hsec hne
    | cons p r =>
      rcases p with ⟨a, b⟩
      rw [hsec] at hlast
      have := infosFrom_getLast_number hlast (m.off + 16)
      simp only [infosFrom] at this ⊢
      rw [List.getLast?_cons_cons]
      exact this
  · show 16 + ((infosFrom (m.off + 16) m.secs).map SectionInfo.length).sum = m.len
    rw [infosFrom_map_length]
    have := wfTail_stop htail
    omega
  · refine List.Pairwise.cons ?_ (infosFrom_pairwise
      (fun p hp => le_trans (by omega) (wfTail_len_ge htail p hp)) _)
    intro q hq
    have := infosFrom_offset_lb (m.off + 16) q hq
    simp
    omega

/-- Invariant theorem for the positioned scanner: every `MessageInfo`
emitted over a well-formed file satisfies `InfoInv`. -/
theorem eachLoop_inv {file : List Nat} {fn : Nat → MessageInfo → Bool} :
    ∀ off, WFFileFrom file off → ∀ fuel idx trace,
      eachMessageLoop file fn fuel off idx = .ok trace →
      ∀ q ∈ trace, InfoInv q.2 := by
  intro off hwf
  induction hwf with
  | done =>
    intro fuel idx trace htr q hq
    match fuel with
    | 0 => cases htr
    | fuel + 1 =>
      unfold eachMessageLoop at htr
      rw [show readAtExact file file.length 4 = none from by
        unfold readAtExact; rw [if_neg (by omega)]] at htr
      cases htr
      cases hq
  | step m off heq hm hrest ih =>
    intro fuel idx trace htr q hq
    match fuel with
    | 0 => cases htr
    | fuel + 1 =>
      subst heq
      rw [eachMessageLoop_step hm fn fuel idx] at htr
      by_cases hfn : fn idx (infoOfLayout idx m)
      · rw [if_pos hfn] at htr
        cases hrec : eachMessageLoop file fn fuel (m.off + m.len) (idx + 1) with
        | error e => rw [hrec] at htr; cases htr
        | ok t =>
          rw [hrec] at htr
          cases htr
          rcases List.mem_cons.mp hq with h1 | h2
          · rw [h1]; exact infoInv_ofLayout hm idx
          · exact ih fuel (idx + 1) t hrec q h2
      · rw [if_neg hfn] at htr
        cases htr
        rcases List.mem_cons.mp hq with h1 | h2
        · rw [h1]; exact infoInv_ofLayout hm idx
        · cases h2

/-- A chain of consecutive well-formed messages starting at `off` (the
bytes after the chain are unconstrained). -/
inductive WFChain (file : List Nat) : Nat → List MsgLayout → Prop
  | nil (off : Nat) : WFChain file off []
  | cons (m : MsgLayout) (ms : List MsgLayout) (off : Nat)
      (heq : m.off = off) (hm : WFMsgAt file m)
      (hrest : WFChain file (m.off + m.len) ms) : WFChain file off (m :: ms)

theorem wfChain_append {p : List Nat} (s : List Nat) {off : Nat} {ms : List MsgLayout}
    (h : WFChain p off ms) : WFChain (p ++ s) off ms := by
  induction h with
  | nil off => exact .nil off
  | cons m ms off heq hm hrest ih => exact .cons m ms off heq (wfMsg_append s hm) ih

theorem wfChain_bound {file : List Nat} {off : Nat} {ms : List MsgLayout}
    (h : WFChain file off ms) : ms = [] ∨ off + 20 * ms.length ≤ file.length := by
  induction h with
  | nil off => exact Or.inl rfl
  | cons m ms off heq hm hrest ih =>
    right
    have hend := wfMsg_end_le hm
    have h20 := wfMsg_len_ge hm
    rcases ih with h | h
    · subst h
      simp
      omega
    · simp at h ⊢
      omega

/-- The callback stops exactly at the last message of `ms`: it returns
true on every earlier message's info and false on the last one. -/
def StopsAt (fn : Nat → MessageInfo → Bool) : Nat → List MsgLayout → Prop
  | _, [] => False
  | idx, [m] => fn idx (infoOfLayout idx m) = false
  | idx, m :: m' :: rest =>
    fn idx (infoOfLayout idx m) = true ∧ StopsAt fn (idx + 1) (m' :: rest)

/-- The callback-invocation trace over a run of messages. -/
def traceOf : Nat → List MsgLayout → List (Nat × MessageInfo)
  | _, [] => []
  | idx, m :: rest => (idx, infoOfLayout idx m) :: traceOf (idx + 1) rest

theorem traceOf_length (ms : List MsgLayout) : ∀ idx, (traceOf idx ms).length = ms.length := by
  induction ms with
  | nil => intro idx; rfl
  | cons m rest ih => intro idx; simp [traceOf, ih]

theorem each_stopsAt {file : List Nat} {fn : Nat → MessageInfo → Bool} :
    ∀ ms off idx fuel, WFChain file off ms → StopsAt fn idx ms → ms.length ≤ fuel →
      eachMessageLoop file fn fuel off idx = .ok (traceOf idx ms) := by
  intro ms
  induction ms with
  | nil => intro off idx fuel _ hst _; exact hst.elim
  | cons m ms ih =>
    intro off idx fuel hchain hst hfuel
    match fuel, hfuel with
    | fuel + 1, hfuel =>
      cases hchain with
      | cons _ _ _ heq hm hrest =>
        subst heq
        rw [eachMessageLoop_step hm fn fuel idx]
        cases ms with
        | nil =>
          have hf : fn idx (infoOfLayout idx m) = false := hst
          rw [hf]
          simp [traceOf]
        | cons m' rest =>
          obtain ⟨ht, hst'⟩ := hst
          rw [ht]
          rw [ih (m.off + m.len) (idx + 1) fuel hrest hst' (by simp at hfuel ⊢; omega)]
          simp [traceOf]

/-- A minimal well-formed single-message file: Section 0 (discipline 0,
edition 2, total length 20) followed immediately by the `7777` end
section. -/
def oneMsgBytes : List Nat :=
  [71, 82, 73, 66, 0, 0, 0, 2, 0, 0, 0, 0, 0, 0, 0, 20, 55, 55, 55, 55]

/-- Layout of the message of `oneMsgBytes` when it starts at offset 0. -/
def oneMsgLayout : MsgLayout := ⟨0, 20, 0, 2, [(8, 4)]⟩

/-- Layout of the message of `oneMsgBytes` when it starts at offset 20. -/
def sndMsgLayout : MsgLayout := ⟨20, 20, 0, 2, [(8, 4)]⟩

theorem oneMsg_wf : WFFile oneMsgBytes :=
  .step oneMsgLayout 0 rfl
    ⟨[71, 82, 73, 66, 0, 0, 0, 2, 0, 0, 0, 0, 0, 0, 0, 20],
      rfl, rfl, rfl, rfl, rfl, .last 16 rfl⟩
    .done

/-- C4: for every well-formed GRIB2 file, every `MessageInfo` emitted by
the positioned scanner (`ReaderAt.EachMessage` via `scanSectionsInRange`)
has a first listed section of number 0, a last of number 8, section
lengths summing to `MessageInfo.length`, and strictly increasing section
offsets. -/
theorem C4_messageinfo_invariants {file : List Nat} {fn : Nat → MessageInfo → Bool}
    {trace : List (Nat × MessageInfo)}
    (hwf : WFFile file) (htr : eachMessageAt file fn = .ok trace) :
    ∀ q ∈ trace,
      q.2.sections.head?.map SectionInfo.number = some 0 ∧
      q.2.sections.getLast?.map SectionInfo.number = some 8 ∧
      (q.2.sections.map SectionInfo.length).sum = q.2.length ∧
      q.2.sections.Pairwise (fun a b => a.offset < b.offset) :=
  fun q hq => eachLoop_inv 0 hwf _ 0 trace htr q hq

theorem C4_messageinfo_invariants_witness :
    ((⟨0, 0, 20, 0, 2, [⟨0, 0, 16⟩, ⟨8, 16, 4⟩]⟩ :
        MessageInfo)).sections.head?.map SectionInfo.number = some 0 ∧
    ((⟨0, 0, 20, 0, 2, [⟨0, 0, 16⟩, ⟨8, 16, 4⟩]⟩ :
        MessageInfo)).sections.getLast?.map SectionInfo.number = some 8 ∧
    (((⟨0, 0, 20, 0, 2, [⟨0, 0, 16⟩, ⟨8, 16, 4⟩]⟩ :
        MessageInfo)).sections.map SectionInfo.length).sum = 20 ∧
    ((⟨0, 0, 20, 0, 2, [⟨0, 0, 16⟩, ⟨8, 16, 4⟩]⟩ :
        MessageInfo)).sections.Pairwise (fun a b => a.offset < b.offset) :=
  @C4_messageinfo_invariants oneMsgBytes (fun _ _ => true)
    [(0, ⟨0, 0, 20, 0, 2, [⟨0, 0, 16⟩, ⟨8, 16, 4⟩]⟩)]
    oneMsg_wf (by rfl)
    (0, ⟨0, 0, 20, 0, 2, [⟨0, 0, 16⟩, ⟨8, 16, 4⟩]⟩) (by simp)

/-- C5 (amended): given the 4-byte prefix at a section boundary, the
positioned framer returns (secNum 0, length 16) on `GRIB` and
(secNum 8, length 4) on `7777`; otherwise it reads the prefix as a
big-endian u32 length and fails with an invalid-length error below 5,
but it takes the byte at `p+4` as the section number without any
validation — a byte outside 1..7 is accepted as a frame, not rejected
with an invalid-section-number error. -/
theorem C5_amended_framer (file : List Nat) (off : Nat) :
    (readAtExact file off 4 = some gribMagic → frameSectionAt file off = .frame 0 16) ∧
    (readAtExact file off 4 = some endMagic → frameSectionAt file off = .frame 8 4) ∧
    (∀ first4, readAtExact file off 4 = some first4 → first4 ≠ gribMagic →
      first4 ≠ endMagic → be32 first4 < 5 →
      frameSectionAt file off = .err (.invalidLength (be32 first4) off)) ∧
    (∀ first4 b, readAtExact file off 4 = some first4 → first4 ≠ gribMagic →
      first4 ≠ endMagic → 5 ≤ be32 first4 → readAtExact file (off + 4) 1 = some [b] →
      frameSectionAt file off = .frame b (be32 first4)) := by
  refine ⟨frameSectionAt_grib, frameSectionAt_end, ?_, ?_⟩
  · intro first4 h4 hg he hlt
    unfold frameSectionAt
    rw [h4]
    simp only
    rw [if_neg hg, if_neg he, if_pos hlt]
  · intro first4 b h4 hg he hge hb
    exact frameSectionAt_mid h4 hg he hge hb

theorem C5_amended_framer_witness :
    frameSectionAt [71, 82, 73, 66] 0 = .frame 0 16 ∧
    frameSectionAt [55, 55, 55, 55] 0 = .frame 8 4 ∧
    frameSectionAt [0, 0, 0, 3, 1] 0 = .err (.invalidLength 3 0) ∧
    frameSectionAt [0, 0, 0, 5, 9] 0 = .frame 9 5 :=
  ⟨(C5_amended_framer [71, 82, 73, 66] 0).1 (by decide),
   (C5_amended_framer [55, 55, 55, 55] 0).2.1 (by decide),
   (C5_amended_framer [0, 0, 0, 3, 1] 0).2.2.1 [0, 0, 0, 3] (by decide)
     (by decide) (by decide) (by decide),
   (C5_amended_framer [0, 0, 0, 5, 9] 0).2.2.2 [0, 0, 0, 5] 9 (by decide)
     (by decide) (by decide) (by decide) (by decide)⟩

/-- C5 counterexample: a section whose fifth byte is 9 (not in 1..7) is
accepted by the framer and by `scanSectionsInRange` without any
invalid-section-number error, contradicting the claim that such a byte
fails the scan. -/
theorem C5_counterexample_secnum9_accepted :
    frameSectionAt [0, 0, 0, 5, 9] 0 = .frame 9 5 ∧
    scanSectionsInRange [0, 0, 0, 5, 9, 55, 55, 55, 55] 0 9 =
      .ok [⟨9, 0, 5⟩, ⟨8, 5, 4⟩] :=
  ⟨rfl, rfl⟩

/-- Errors of the section codec (`fmt.Errorf` sites and io errors in the
`section` package).  `readFailed sec field` stands for an io failure
while decoding section `sec` (field codes: 0 length, 1 body, 2 template,
3 list/coordinates). -/
inductive SecErr where
  | dataTooShort (sec : Nat)
  | invalidIdentifier
  | invalidEndMarker
  | readFailed (sec field : Nat)
  | sectionNumberMismatch (expected got : Nat)
  | invalidSectionMarker
  | eof
  | unexpectedEof
  | ioFailure
  | goPanic
  | noFuel
deriving DecidableEq, Repr

/-- Decoded Section 0 (`section0` struct). -/
structure Sec0 where
  identifier : List Nat
  reserved : List Nat
  discipline : Nat
  edition : Nat
  totalLength : Nat
deriving DecidableEq, Repr

/-- Decoded Section 1 (`section1` struct). -/
structure Sec1 where
  length : Nat
  sectionNumber : Nat
  originatingCenter : Nat
  originatingSubcenter : Nat
  masterTablesVersion : Nat
  localTablesVersion : Nat
  referenceTimeSignificance : Nat
  year : Nat
  month : Nat
  day : Nat
  hour : Nat
  minute : Nat
  second : Nat
  productionStatus : Nat
  productType : Nat
  reserved : List Nat
deriving DecidableEq, Repr

/-- Decoded Section 2 (`section2` struct). -/
structure Sec2 where
  length : Nat
  sectionNumber : Nat
  localUse : List Nat
deriving DecidableEq, Repr

/-- Decoded Section 3 (`section3` struct). -/
structure Sec3 where
  length : Nat
  sectionNumber : Nat
  gridDefinitionSource : Nat
  numberOfDataPoints : Nat
  optionalListOctets : Nat
  optionalListInterpretation : Nat
  gridDefinitionTemplateNumber : Nat
  gridDefinitionTemplate : List Nat
  optionalList : List Nat
deriving DecidableEq, Repr

/-- Decoded Section 4 (`section4` struct); coordinate values are the
exact rationals of the IEEE 754 binary32 words on the wire. -/
structure Sec4 where
  length : Nat
  sectionNumber : Nat
  numberOfCoordinateValues : Nat
  productDefinitionTemplateNumber : Nat
  productDefinitionTemplate : List Nat
  coordinateValues : List ℚ
deriving DecidableEq, Repr

/-- Decoded Section 5 (`section5` struct). -/
structure Sec5 where
  length : Nat
  sectionNumber : Nat
  numberOfDataPoints : Nat
  dataRepresentationTemplateNumber : Nat
  dataRepresentationTemplate : List Nat
deriving DecidableEq, Repr

/-- Decoded Section 6 (`section6` struct). -/
structure Sec6 where
  length : Nat
  sectionNumber : Nat
  bitMapIndicator : Nat
  bitMap : List Nat
deriving DecidableEq, Repr

/-- The lazy Section 7 handle (`section7` struct): the growing buffer,
the remaining upstream bytes (with `upstreamBad` marking a source that
fails with a non-EOF error once exhausted), the `originalReader != nil`
flag, the `isFullyRead` flag and the write-once stored error. -/
structure Sec7 where
  length : Nat
  sectionNumber : Nat
  dataSize : Nat
  buffer : List Nat
  upstream : List Nat
  upstreamBad : Bool
  hasReader : Bool
  isFullyRead : Bool
  readErr : Option SecErr
deriving DecidableEq, Repr

/-- Decoded Section 8 (`section8` struct). -/
structure Sec8 where
  endMarker : List Nat
deriving DecidableEq, Repr

/-- `section3.GridDefinitionTemplateNumber() uint8`: the accessor
truncates the stored u16 with a `uint8(...)` conversion. -/
def Sec3.GridDefinitionTemplateNumber (s : Sec3) : Nat :=
  s.gridDefinitionTemplateNumber % 256

/-- `section4.ProductDefinitionTemplateNumber() uint8`: the accessor
truncates the stored u16 with a `uint8(...)` conversion. -/
def Sec4.ProductDefinitionTemplateNumber (s : Sec4) : Nat :=
  s.productDefinitionTemplateNumber % 256

/-- `section5.DataRepresentationTemplateNumber() uint8`: the accessor
truncates the stored u16 with a `uint8(...)` conversion. -/
def Sec5.DataRepresentationTemplateNumber (s : Sec5) : Nat :=
  s.dataRepresentationTemplateNumber % 256

/-- `NewSection0FromBytes`. -/
def NewSection0FromBytes (data : List Nat) : Except SecErr Sec0 :=
  if data.length < 16 then .error (.dataTooShort 0)
  else if data.take 4 ≠ gribMagic then .error .invalidIdentifier
  else .ok ⟨data.take 4, (data.drop 4).take 2, data.getD 6 0, data.getD 7 0,
    be64 ((data.drop 8).take 8)⟩

/-- `NewSection1FromBytes`.  `reservedN` is `s.length - 21` computed in
Go's wrapping uint32 arithmetic; when `keepReserved` is set the Go code
copies into a `bytes.Buffer` seeded with the zeroed slice, so the field
it keeps is the zero-filled slice, not the reserved bytes themselves. -/
def NewSection1FromBytes (data : List Nat) (keepReserved : Bool) : Except SecErr Sec1 :=
  if data.length < 21 then .error (.dataTooShort 1)
  else
    let length := be32 (data.take 4)
    let reservedN := (length + 2 ^ 32 - 21) % 2 ^ 32
    if data.length - 21 < reservedN then .error (.readFailed 1 4)
    else .ok ⟨length, data.getD 4 0,
      be16 ((data.drop 5).take 2), be16 ((data.drop 7).take 2),
      data.getD 9 0, data.getD 10 0, data.getD 11 0,
      be16 ((data.drop 12).take 2), data.getD 14 0, data.getD 15 0,
      data.getD 16 0, data.getD 17 0, data.getD 18 0,
      data.getD 19 0, data.getD 20 0,
      if keepReserved then List.replicate reservedN 0 else []⟩

/-- `NewSection2FromBytes`.  `localUseN` is `s.length - 5` in wrapping
uint32 arithmetic. -/
def NewSection2FromBytes (data : List Nat) : Except SecErr Sec2 :=
  if data.length < 4 then .error (.dataTooShort 2)
  else
    let length := be32 (data.take 4)
    let localUseN := (length + 2 ^ 32 - 5) % 2 ^ 32
    if data.length < 5 then .error .eof
    else if data.length - 5 < localUseN then .error (.readFailed 2 1)
    else .ok ⟨length, data.getD 4 0, (data.drop 5).take localUseN⟩

/-- The semantics of a single `bytes.Reader.Read` into a zeroed slice of
size `want` at position `pos` of `data`: an error only when nothing is
left, otherwise the available bytes and trailing zeros of the untouched
slice. -/
def brReadInto (data : List Nat) (pos want : Nat) : Except Unit (List Nat) :=
  if want = 0 then .ok []
  else if data.length ≤ pos then .error ()
  else .ok ((data.drop pos).take want ++
    List.replicate (want - (data.length - pos)) 0)

/-- `NewSection3FromBytes`: header fields, then the template via a
single `br.Read` (partial reads leave zero padding), then the optional
list as big-endian u32 entries. -/
def NewSection3FromBytes (data : List Nat) : Except SecErr Sec3 :=
  if data.length < 14 then .error (.dataTooShort 3)
  else
    let length := be32 (data.take 4)
    let optionalListOctets := data.getD 10 0
    let templateSize : Int := (length : Int) - 14 - (optionalListOctets : Int)
    let tsz := templateSize.toNat
    let tret : Except Unit (List Nat) :=
      if templateSize > 0 then brReadInto data 14 tsz else .ok []
    match tret with
    | .error _ => .error (.readFailed 3 2)
    | .ok template =>
      let pos := 14 + min tsz (data.length - 14)
      if optionalListOctets > 0 then
        let numEntries := optionalListOctets / 4
        if data.length - pos < 4 * numEntries then .error (.readFailed 3 3)
        else .ok ⟨length, data.getD 4 0, data.getD 5 0, be32 ((data.drop 6).take 4),
          optionalListOctets, data.getD 11 0, be16 ((data.drop 12).take 2), template,
          (List.range numEntries).map (fun i => be32 ((data.drop (pos + 4 * i)).take 4))⟩
      else .ok ⟨length, data.getD 4 0, data.getD 5 0, be32 ((data.drop 6).take 4),
        optionalListOctets, data.getD 11 0, be16 ((data.drop 12).take 2), template, []⟩

/-- `NewSection4FromBytes`: header fields, template via `br.Read`, then
coordinate values as IEEE 754 binary32 words. -/
def NewSection4FromBytes (data : List Nat) : Except SecErr Sec4 :=
  if data.length < 9 then .error (.dataTooShort 4)
  else
    let length := be32 (data.take 4)
    let numberOfCoordinateValues := be16 ((data.drop 5).take 2)
    let coordinateSize := numberOfCoordinateValues * 4
    let templateSize : Int := (length : Int) - 9 - (coordinateSize : Int)
    let tsz := templateSize.toNat
    let tret : Except Unit (List Nat) :=
      if templateSize > 0 then brReadInto data 9 tsz else .ok []
    match tret with
    | .error _ => .error (.readFailed 4 2)
    | .ok template =>
      let pos := 9 + min tsz (data.length - 9)
      if numberOfCoordinateValues > 0 then
        if data.length - pos < 4 * numberOfCoordinateValues then .error (.readFailed 4 3)
        else .ok ⟨length, data.getD 4 0, numberOfCoordinateValues,
          be16 ((data.drop 7).take 2), template,
          (List.range numberOfCoordinateValues).map
            (fun i => ieee32ToRat (be32 ((data.drop (pos + 4 * i)).take 4)))⟩
      else .ok ⟨length, data.getD 4 0, numberOfCoordinateValues,
        be16 ((data.drop 7).take 2), template, []⟩

/-- `NewSection5FromBytes`: header fields and the template via
`br.Read`. -/
def NewSection5FromBytes (data : List Nat) : Except SecErr Sec5 :=
  if data.length < 11 then .error (.dataTooShort 5)
  else
    let length := be32 (data.take 4)
    let templateSize : Int := (length : Int) - 11
    let tsz := templateSize.toNat
    let tret : Except Unit (List Nat) :=
      if templateSize > 0 then brReadInto data 11 tsz else .ok []
    match tret with
    | .error _ => .error (.readFailed 5 2)
    | .ok template =>
      .ok ⟨length, data.getD 4 0, be32 ((data.drop 5).take 4),
        be16 ((data.drop 9).take 2), template⟩

/-- `NewSection6FromBytes`: the bitmap is read (via `br.Read`) only when
the indicator is 0. -/
def NewSection6FromBytes (data : List Nat) : Except SecErr Sec6 :=
  if data.length < 6 then .error (.dataTooShort 6)
  else
    let length := be32 (data.take 4)
    let bitMapIndicator := data.getD 5 0
    if bitMapIndicator = 0 then
      let bms : Int := (length : Int) - 6
      if bms > 0 then
        match brReadInto data 6 bms.toNat with
        | .error _ => .error (.readFailed 6 1)
        | .ok bm => .ok ⟨length, data.getD 4 0, bitMapIndicator, bm⟩
      else .ok ⟨length, data.getD 4 0, bitMapIndicator, []⟩
    else .ok ⟨length, data.getD 4 0, bitMapIndicator, []⟩

/-- `NewSection8FromBytes`. -/
def NewSection8FromBytes (data : List Nat) : Except SecErr Sec8 :=
  if data.length < 4 then .error (.dataTooShort 8)
  else if data.take 4 ≠ endMagic then .error .invalidEndMarker
  else .ok ⟨data.take 4⟩

/-- The fill loop of `section7.readChunk`: read 64 KiB chunks from the
upstream reader while the buffer is below `target` and the reader is
still attached; EOF marks `isFullyRead`, a non-EOF failure is stored in
`readErr`, and reaching `dataSize` detaches the reader.  One upstream
`Read` returns the available bytes (up to the chunk size) or, once the
bytes are exhausted, EOF (or the upstream's failure when `upstreamBad`).
Fuel is the upstream length plus one; every looping step consumes
upstream bytes. -/
def s7FillLoop (dataSize target : Nat) : Nat → (List Nat × List Nat) → Bool → Bool →
    (Nat × List Nat × List Nat × Bool × Bool × Option SecErr)
  | 0, (buffer, upstream), hasReader, _ =>
    (0, buffer, upstream, hasReader, false, none)
  | fuel + 1, (buffer, upstream), hasReader, upstreamBad =>
    if buffer.length < target && hasReader then
      let remainingNeed := target - buffer.length
      let currentChunkSize := min 65536 remainingNeed
      match upstream with
      | [] =>
        if upstreamBad then (0, buffer, [], hasReader, false, some .ioFailure)
        else (0, buffer, [], false, true, none)
      | u :: us =>
        let taken := (u :: us).take currentChunkSize
        let buffer' := buffer ++ taken
        let upstream' := (u :: us).drop currentChunkSize
        if dataSize ≤ buffer'.length then
          (taken.length, buffer', upstream', false, true, none)
        else
          let (n, b, up, hr, fr, re) :=
            s7FillLoop dataSize target fuel (buffer', upstream') hasReader upstreamBad
          (taken.length + n, b, up, hr, fr, re)
    else (0, buffer, upstream, hasReader, false, none)

/-- `section7.readChunk`: early return when fully read, failed, or the
buffer already holds `minBytes`; otherwise fill up to
`min minBytes dataSize`. -/
def s7ReadChunk (minBytes : Nat) (s : Sec7) : (Nat × Option SecErr) × Sec7 :=
  if s.isFullyRead || s.readErr.isSome then ((0, s.readErr), s)
  else if minBytes ≤ s.buffer.length then ((0, none), s)
  else
    match s7FillLoop s.dataSize (min minBytes s.dataSize) (s.upstream.length + 1)
        (s.buffer, s.upstream) s.hasReader s.upstreamBad with
    | (n, b, up, hr, fr, re) =>
      ((n, re), ⟨s.length, s.sectionNumber, s.dataSize, b, up, s.upstreamBad, hr,
        s.isFullyRead || fr, re⟩)

/-- `section7.Data`: force a full fill, then return nil on a stored
error and a copy of the buffer otherwise. -/
def s7Data (s : Sec7) : Option (List Nat) × Sec7 :=
  let s' := (s7ReadChunk s.dataSize s).2
  if s'.readErr.isSome then (none, s')
  else (some s'.buffer, s')

/-- `section7.LoadError`. -/
def s7LoadError (s : Sec7) : Option SecErr := s.readErr

/-- One `section7Reader.Read` with a destination buffer of `p` bytes at
cursor `offset`: ensure `offset + p` (capped at `dataSize`) bytes are
buffered, then copy from the buffer.  The cursor never exceeds the
buffer in reachable states, so truncated `Nat` subtraction matches Go's
`uint32` arithmetic here. -/
def s7ReaderRead (p offset : Nat) (s : Sec7) :
    Except SecErr (List Nat) × Nat × Sec7 :=
  let needed0 := offset + p
  let needed := if s.dataSize < needed0 then s.dataSize else needed0
  let s' := (s7ReadChunk needed s).2
  match s'.readErr with
  | some e => (.error e, offset, s')
  | none =>
    let available := s'.buffer.length - offset
    if available = 0 then (.error .eof, offset, s')
    else
      let toCopy := min available p
      (.ok ((s'.buffer.drop offset).take toCopy), offset + toCopy, s')

/-- Drain a `section7Reader` to EOF with `b`-byte reads, collecting the
bytes seen. -/
def s7ReadToEnd (b : Nat) : Nat → Nat → Sec7 → List Nat →
    Except SecErr (List Nat × Sec7)
  | 0, _, _, _ => .error .noFuel
  | fuel + 1, offset, s, acc =>
    match s7ReaderRead b offset s with
    | (.error .eof, _, s') => .ok (acc, s')
    | (.error e, _, _) => .error e
    | (.ok bytes, offset', s') => s7ReadToEnd b fuel offset' s' (acc ++ bytes)

/-- Reading `DataReader()` to end, starting at cursor 0. -/
def s7DataReaderToEnd (b : Nat) (s : Sec7) : Except SecErr (List Nat × Sec7) :=
  s7ReadToEnd b (s.dataSize + 2) 0 s []

/-- `NewSection7FromDataReader`: a fresh handle over a data-only reader;
`dataSize` is `length - 5` in wrapping uint32 arithmetic. -/
def NewSection7FromDataReader (length sectionNumber : Nat) (upstream : List Nat)
    (upstreamBad : Bool) : Sec7 :=
  ⟨length, sectionNumber, (length + 2 ^ 32 - 5) % 2 ^ 32, [], upstream,
    upstreamBad, true, false, none⟩

/-- A decoded section value (the `section.Section` interface). -/
inductive Sec where
  | sec0 (s : Sec0)
  | sec1 (s : Sec1)
  | sec2 (s : Sec2)
  | sec3 (s : Sec3)
  | sec4 (s : Sec4)
  | sec5 (s : Sec5)
  | sec6 (s : Sec6)
  | sec7 (s : Sec7)
  | sec8 (s : Sec8)
deriving DecidableEq, Repr

/-- `Section.SectionNumber()`: sections 0 and 8 answer constants, the
others answer their decoded section-number byte. -/
def Sec.secNum : Sec → Nat
  | .sec0 _ => 0
  | .sec1 s => s.sectionNumber
  | .sec2 s => s.sectionNumber
  | .sec3 s => s.sectionNumber
  | .sec4 s => s.sectionNumber
  | .sec5 s => s.sectionNumber
  | .sec6 s => s.sectionNumber
  | .sec7 s => s.sectionNumber
  | .sec8 _ => 8

/-- `Reader.getSectionLength`: 16 for Section 0, 4 for Section 8, the
decoded length field otherwise. -/
def Sec.getLength : Sec → Nat
  | .sec0 _ => 16
  | .sec1 s => s.length
  | .sec2 s => s.length
  | .sec3 s => s.length
  | .sec4 s => s.length
  | .sec5 s => s.length
  | .sec6 s => s.length
  | .sec7 s => s.length
  | .sec8 _ => 4

/-- `NewSection0FromReader`: `io.ReadFull` of the fixed 16 bytes, then
`NewSection0FromBytes`.  Returns the section and the unread remainder of
the stream. -/
def NewSection0FromReaderSeq (stream : List Nat) : Except SecErr (Sec0 × List Nat) :=
  if stream.length < 16 then
    .error (if stream.length = 0 then .eof else .unexpectedEof)
  else
    match NewSection0FromBytes (stream.take 16) with
    | .error e => .error e
    | .ok s => .ok (s, stream.drop 16)

/-- `NewSection8FromReader`: `io.ReadFull` of the fixed 4 bytes, then
`NewSection8FromBytes`. -/
def NewSection8FromReaderSeq (stream : List Nat) : Except SecErr (Sec8 × List Nat) :=
  if stream.length < 4 then
    .error (if stream.length = 0 then .eof else .unexpectedEof)
  else
    match NewSection8FromBytes (stream.take 4) with
    | .error e => .error e
    | .ok s => .ok (s, stream.drop 4)

/-- The length-prefixed `FromReader` pattern shared by sections 3, 5 and
6 in the source: read the 4-byte length, build `data` of that size with
the length bytes copied in front and the body filled by `io.ReadFull`,
and decode with the given `FromBytes`.  A declared length below 4 makes
the Go `copy(data[:4], ...)` panic. -/
def lengthPrefixedFromReader {α : Type} (fromBytes : List Nat → Except SecErr α)
    (stream : List Nat) : Except SecErr (α × List Nat) :=
  if stream.length < 4 then
    .error (if stream.length = 0 then .eof else .unexpectedEof)
  else
    let length := be32 (stream.take 4)
    if length < 4 then .error .goPanic
    else if stream.length < length then .error .unexpectedEof
    else
      match fromBytes (stream.take length) with
      | .error e => .error e
      | .ok s => .ok (s, stream.drop length)

/-- `NewSection2FromReader`: `io.Copy` consumes the whole remaining
stream into the buffer, then `NewSection2FromBytes` decodes it. -/
def NewSection2FromReaderSeq (stream : List Nat) : Except SecErr (Sec2 × List Nat) :=
  match NewSection2FromBytes stream with
  | .error e => .error e
  | .ok s => .ok (s, [])

/-- `NewSection3FromReader`. -/
def NewSection3FromReaderSeq (stream : List Nat) : Except SecErr (Sec3 × List Nat) :=
  lengthPrefixedFromReader NewSection3FromBytes stream

/-- `NewSection5FromReader`. -/
def NewSection5FromReaderSeq (stream : List Nat) : Except SecErr (Sec5 × List Nat) :=
  lengthPrefixedFromReader NewSection5FromBytes stream

/-- `NewSection6FromReader`. -/
def NewSection6FromReaderSeq (stream : List Nat) : Except SecErr (Sec6 × List Nat) :=
  lengthPrefixedFromReader NewSection6FromBytes stream

/-- Modelled from the spec: `NewSection1FromReader` is referenced by the
sequential reader's dispatch table but its definition is not among the
provided sources.  Per the spec's Section Codec contract it reads the
4-byte length, then the full section body, and decodes it per the S1
layout with reserved bytes discarded (`keepReserved = false`). -/
def NewSection1FromReaderSeq (stream : List Nat) : Except SecErr (Sec1 × List Nat) :=
  lengthPrefixedFromReader (fun d => NewSection1FromBytes d false) stream

/-- Modelled from the spec: `NewSection4FromReader` is referenced by the
sequential reader's dispatch table but its definition is not among the
provided sources.  Per the spec's Section Codec contract it reads the
4-byte length, then the full section body, and decodes it per the S4
layout. -/
def NewSection4FromReaderSeq (stream : List Nat) : Except SecErr (Sec4 × List Nat) :=
  lengthPrefixedFromReader NewSection4FromBytes stream

/-- `NewSection7FromReader`: read the 4-byte length and the section
number (which must be 7), then hand a `LimitReader` capped at
`length - 5` (wrapping uint32) to `NewSection7FromDataReader`.  Returns
the lazy handle and the stream positioned after the 5 header bytes. -/
def NewSection7FromReaderSeq (stream : List Nat) (upstreamBad : Bool) :
    Except SecErr (Sec7 × List Nat) :=
  if stream.length < 4 then
    .error (if stream.length = 0 then .eof else .unexpectedEof)
  else if stream.length < 5 then .error (.readFailed 7 0)
  else
    let length := be32 (stream.take 4)
    let sectionNumber := stream.getD 4 0
    if sectionNumber ≠ 7 then .error (.sectionNumberMismatch 7 sectionNumber)
    else
      let dataSize := (length + 2 ^ 32 - 5) % 2 ^ 32
      let rest := stream.drop 5
      .ok (⟨length, sectionNumber, dataSize, [], rest.take dataSize,
        upstreamBad, true, false, none⟩, rest)

/-- `section.Reader.ReadSection` (the sequential dispatch): a raw 4-byte
read (zero-padded on a short read, exactly as the unchecked `r.Read`
into a zeroed buffer behaves), magic dispatch to S0/S8, otherwise one
more byte selects the decoder from the 0..8 table, any other byte being
an invalid section marker.  The chosen decoder re-reads the probed bytes
through the pushback `MultiReader`. -/
def readSectionSeq (stream : List Nat) : Except SecErr (Sec × List Nat) :=
  match stream with
  | [] => .error .eof
  | _ :: _ =>
    let first4 := stream.take 4 ++ List.replicate (4 - stream.length) 0
    let rest := stream.drop 4
    if first4 = gribMagic then
      match NewSection0FromReaderSeq (first4 ++ rest) with
      | .error e => .error e
      | .ok (s, r) => .ok (.sec0 s, r)
    else if first4 = endMagic then
      match NewSection8FromReaderSeq (first4 ++ rest) with
      | .error e => .error e
      | .ok (s, r) => .ok (.sec8 s, r)
    else
      match rest with
      | [] => .error .eof
      | nextByte :: rest' =>
        let pushback := first4 ++ nextByte :: rest'
        match nextByte with
        | 0 =>
          match NewSection0FromReaderSeq pushback with
          | .error e => .error e
          | .ok (s, r) => .ok (.sec0 s, r)
        | 1 =>
          match NewSection1FromReaderSeq pushback with
          | .error e => .error e
          | .ok (s, r) => .ok (.sec1 s, r)
        | 2 =>
          match NewSection2FromReaderSeq pushback with
          | .error e => .error e
          | .ok (s, r) => .ok (.sec2 s, r)
        | 3 =>
          match NewSection3FromReaderSeq pushback with
          | .error e => .error e
          | .ok (s, r) => .ok (.sec3 s, r)
        | 4 =>
          match NewSection4FromReaderSeq pushback with
          | .error e => .error e
          | .ok (s, r) => .ok (.sec4 s, r)
        | 5 =>
          match NewSection5FromReaderSeq pushback with
          | .error e => .error e
          | .ok (s, r) => .ok (.sec5 s, r)
        | 6 =>
          match NewSection6FromReaderSeq pushback with
          | .error e => .error e
          | .ok (s, r) => .ok (.sec6 s, r)
        | 7 =>
          match NewSection7FromReaderSeq pushback false with
          | .error e => .error e
          | .ok (s, r) => .ok (.sec7 s, r)
        | 8 =>
          match NewSection8FromReaderSeq pushback with
          | .error e => .error e
          | .ok (s, r) => .ok (.sec8 s, r)
        | _ => .error .invalidSectionMarker

/-- `Reader.ReadSection`: dispatch one section, and for Section 7 force
`Data()` so the shared stream advances past the payload. -/
def readerReadSection (stream : List Nat) : Except SecErr (Sec × List Nat) :=
  match readSectionSeq stream with
  | .error e => .error e
  | .ok (sec, rest) =>
    match sec with
    | .sec7 s7 =>
      let s7' := (s7Data s7).2
      .ok (.sec7 s7', rest.drop s7'.buffer.length)
    | s => .ok (s, rest)

/-- `Reader.readAllSections`: read sections until `io.EOF` (clean stop)
or any other error (propagated). -/
def readAllSections : Nat → List Nat → List Sec → Except SecErr (List Sec)
  | 0, _, _ => .error .noFuel
  | fuel + 1, stream, acc =>
    match readerReadSection stream with
    | .error .eof => .ok acc.reverse
    | .error e => .error e
    | .ok (sec, rest) => readAllSections fuel rest (sec :: acc)

/-- `spec.DataField`: the innermost repeatable sequence (sections 4-7);
interface fields may be nil. -/
structure DataField where
  ProductDef : Option Sec4
  DataRep : Option Sec5
  Bitmap : Option Sec6
  Data : Option Sec7
deriving DecidableEq, Repr

/-- `spec.GridBlock`. -/
structure GridBlock where
  GridDef : Option Sec3
  Fields : List DataField
deriving DecidableEq, Repr

/-- `spec.LocalBlock`. -/
structure LocalBlock where
  LocalUse : Option Sec2
  Grids : List GridBlock
deriving DecidableEq, Repr

/-- `reader.Message`: reader metadata plus the nested `spec.Message`. -/
structure RMessage where
  Info : MessageInfo
  Indicator : Option Sec0
  Identification : Option Sec1
  Blocks : List LocalBlock
  End : Option Sec8
deriving DecidableEq, Repr

/-- The mutable state of `Reader.buildMessages`. -/
structure BuildState where
  messages : List RMessage
  currentMessage : Option RMessage
  currentLocalBlock : Option LocalBlock
  currentGridBlock : Option GridBlock
  currentDataField : Option DataField
  offset : Nat
deriving DecidableEq, Repr

/-- `Reader.buildSectionInfo`'s backward search for the message's
Section 0 (defaulting to index 0 when none is found). -/
def findMsgStart (allSecs : List Sec) : Nat → Nat
  | 0 => 0
  | i + 1 =>
    if (allSecs.getD (i + 1) (.sec8 ⟨[]⟩)).secNum = 0 then i + 1
    else findMsgStart allSecs i

/-- The section index `Reader.buildSectionInfo` assembles for the
sections `startIndex..endIndex`, with offsets accumulated from the
message offset. -/
def buildSectionInfosRange (allSecs : List Sec) (startIndex endIndex baseOffset : Nat) :
    List SectionInfo :=
  (((List.range (endIndex + 1 - startIndex)).map (· + startIndex)).foldl
    (fun acc j =>
      let sec := allSecs.getD j (.sec8 ⟨[]⟩)
      (acc.1 ++ [⟨sec.secNum, acc.2, sec.getLength⟩], acc.2 + sec.getLength))
    (([] : List SectionInfo), baseOffset)).1

/-- `Reader.buildSectionInfo`. -/
def buildSectionInfo (allSecs : List Sec) (msg : RMessage) (endIndex : Nat) : RMessage :=
  let startIndex := findMsgStart allSecs endIndex
  ⟨⟨msg.Info.index, msg.Info.offset, msg.Info.length, msg.Info.discipline,
      msg.Info.edition,
      buildSectionInfosRange allSecs startIndex endIndex msg.Info.offset⟩,
    msg.Indicator, msg.Identification, msg.Blocks, msg.End⟩

/-- One transition of `Reader.buildMessages`' state machine, switching
on the incoming section's number with the source's type assertions
(an assertion failure leaves the corresponding slot unchanged). -/
def buildStep (allSecs : List Sec) (st : BuildState) (i : Nat) (sec : Sec) : BuildState :=
  let st' : BuildState :=
    match sec.secNum with
    | 0 =>
      let messages' :=
        match st.currentMessage with
        | some msg => st.messages ++ [msg]
        | none => st.messages
      match sec with
      | .sec0 s0 =>
        ⟨messages',
          some ⟨⟨messages'.length, st.offset, s0.totalLength, s0.discipline,
            s0.edition, []⟩, some s0, none, [], none⟩,
          none, none, none, st.offset⟩
      | _ => ⟨messages', st.currentMessage, st.currentLocalBlock,
          st.currentGridBlock, st.currentDataField, st.offset⟩
    | 1 =>
      match st.currentMessage, sec with
      | some msg, .sec1 s1 =>
        ⟨st.messages, some ⟨msg.Info, msg.Indicator, some s1, msg.Blocks, msg.End⟩,
          st.currentLocalBlock, st.currentGridBlock, st.currentDataField, st.offset⟩
      | _, _ => st
    | 2 =>
      match st.currentMessage with
      | some msg =>
        let msg' :=
          match st.currentLocalBlock with
          | some lb => (⟨msg.Info, msg.Indicator, msg.Identification,
              msg.Blocks ++ [lb], msg.End⟩ : RMessage)
          | none => msg
        let newLB : LocalBlock :=
          match sec with
          | .sec2 s2 => ⟨some s2, []⟩
          | _ => ⟨none, []⟩
        ⟨st.messages, some msg', some newLB, none, none, st.offset⟩
      | none => st
    | 3 =>
      match st.currentMessage with
      | some _ =>
        let lb0 : LocalBlock :=
          match st.currentLocalBlock with
          | some lb => lb
          | none => ⟨none, []⟩
        let lb' : LocalBlock :=
          match st.currentGridBlock with
          | some gb => ⟨lb0.LocalUse, lb0.Grids ++ [gb]⟩
          | none => lb0
        let newGB : Option GridBlock :=
          match sec with
          | .sec3 s3 => some ⟨some s3, []⟩
          | _ => st.currentGridBlock
        ⟨st.messages, st.currentMessage, some lb', newGB, none, st.offset⟩
      | none => st
    | 4 =>
      match st.currentGridBlock with
      | some gb =>
        let gb' : GridBlock :=
          match st.currentDataField with
          | some df => ⟨gb.GridDef, gb.Fields ++ [df]⟩
          | none => gb
        let newDF : Option DataField :=
          match sec with
          | .sec4 s4 => some ⟨some s4, none, none, none⟩
          | _ => st.currentDataField
        ⟨st.messages, st.currentMessage, st.currentLocalBlock, some gb', newDF,
          st.offset⟩
      | none => st
    | 5 =>
      match st.currentDataField, sec with
      | some df, .sec5 s5 =>
        ⟨st.messages, st.currentMessage, st.currentLocalBlock, st.currentGridBlock,
          some ⟨df.ProductDef, some s5, df.Bitmap, df.Data⟩, st.offset⟩
      | _, _ => st
    | 6 =>
      match st.currentDataField, sec with
      | some df, .sec6 s6 =>
        ⟨st.messages, st.currentMessage, st.currentLocalBlock, st.currentGridBlock,
          some ⟨df.ProductDef, df.DataRep, some s6, df.Data⟩, st.offset⟩
      | _, _ => st
    | 7 =>
      match st.currentDataField, sec with
      | some df, .sec7 s7 =>
        ⟨st.messages, st.currentMessage, st.currentLocalBlock, st.currentGridBlock,
          some ⟨df.ProductDef, df.DataRep, df.Bitmap, some s7⟩, st.offset⟩
      | _, _ => st
    | 8 =>
      match st.currentMessage, sec with
      | some msg, .sec8 s8 =>
        let gb' : Option GridBlock :=
          match st.currentGridBlock, st.currentDataField with
          | some gb, some df => some ⟨gb.GridDef, gb.Fields ++ [df]⟩
          | gb, _ => gb
        let lb' : Option LocalBlock :=
          match st.currentLocalBlock, gb' with
          | some lb, some gb => some ⟨lb.LocalUse, lb.Grids ++ [gb]⟩
          | lb, _ => lb
        let blocks' :=
          match lb' with
          | some lb => msg.Blocks ++ [lb]
          | none => msg.Blocks
        let msg' : RMessage :=
          ⟨msg.Info, msg.Indicator, msg.Identification, blocks', some s8⟩
        let msg'' := buildSectionInfo allSecs msg' i
        ⟨st.messages ++ [msg''], none, none, none, none, st.offset⟩
      | _, _ => st
    | _ => st
  ⟨st'.messages, st'.currentMessage, st'.currentLocalBlock, st'.currentGridBlock,
    st'.currentDataField, st'.offset + sec.getLength⟩

/-- `Reader.buildMessages`: fold the section stream through the state
machine.  The Go function's `error` result is always nil. -/
def buildMessages (secs : List Sec) : Except SecErr (List RMessage) :=
  .ok ((secs.enum.foldl (fun st p => buildStep secs st p.1 p.2)
    ⟨[], none, none, none, none, 0⟩).messages)

/-- The callback loop of `Reader.EachMessage` over the built messages. -/
def msgIterate (fn : Nat → MessageInfo → Bool) : Nat → List RMessage →
    List (Nat × MessageInfo)
  | _, [] => []
  | i, msg :: rest =>
    if fn i msg.Info then (i, msg.Info) :: msgIterate fn (i + 1) rest
    else [(i, msg.Info)]

/-- `Reader.EachMessage` (sequential): read every section of the whole
stream first, then build the messages, then iterate the callback.  The
result is the trace of callback invocations. -/
def seqEachMessage (stream : List Nat) (fn : Nat → MessageInfo → Bool) :
    Except SecErr (List (Nat × MessageInfo)) :=
  match readAllSections (stream.length + 1) stream [] with
  | .error e => .error e
  | .ok secs =>
    match buildMessages secs with
    | .error e => .error e
    | .ok messages => .ok (msgIterate fn 0 messages)

/-- `template.ProductTemplate`, restricted to the fields the extraction
code writes (the remaining fields stay at their zero values throughout
the extraction paths embedded here). -/
structure ProductTemplate where
  TemplateNumber : Nat
  Category : Nat
  Parameter : Nat
  TypeOfGeneratingProcess : Nat
  BackgroundProcess : Nat
  GeneratingProcessIdentifier : Nat
  HoursAfterDataCutoff : Nat
  MinutesAfterDataCutoff : Nat
  IndicatorOfUnitOfTimeRange : Nat
  ForecastTime : Nat
  TypeOfFirstFixedSurface : Nat
  ScaleFactorOfFirstFixedSurface : Int
  ScaledValueOfFirstFixedSurface : Nat
  TypeOfSecondFixedSurface : Nat
  ScaleFactorOfSecondFixedSurface : Int
  ScaledValueOfSecondFixedSurface : Nat
deriving DecidableEq, Repr

/-- The zero value of `ProductTemplate`. -/
def ProductTemplate.zero : ProductTemplate :=
  ⟨0, 0, 0, 0, 0, 0, 0, 0, 0, 0, 0, 0, 0, 0, 0, 0⟩

/-- `template.LatLonGrid`, restricted to the fields the extraction code
writes.  `LatitudeOfFirstGridPoint` and `LatitudeOfLastGridPoint` are
Go `int32` fields, hence `Int` here. -/
structure LatLonGrid where
  NumberOfGridPointsAlongX : Nat
  NumberOfGridPointsAlongY : Nat
  LatitudeOfFirstGridPoint : Int
  LongitudeOfFirstGridPoint : Nat
  LatitudeOfLastGridPoint : Int
  LongitudeOfLastGridPoint : Nat
  XDirectionIncrement : Nat
  YDirectionIncrement : Nat
  ScanningMode : Nat
deriving DecidableEq, Repr

/-- The zero value of `LatLonGrid`. -/
def LatLonGrid.zero : LatLonGrid := ⟨0, 0, 0, 0, 0, 0, 0, 0, 0⟩

/-- `template.GridTemplate`, restricted to the fields the extraction
code writes. -/
structure GridTemplate where
  TemplateNumber : Nat
  SourceOfGridDefinition : Nat
  NumberOfDataPoints : Nat
  NumberOfOctectsForOptional : Nat
  InterpretationOfOptional : Nat
  LatLon : Option LatLonGrid
deriving DecidableEq, Repr

/-- The zero value of `GridTemplate`. -/
def GridTemplate.zero : GridTemplate := ⟨0, 0, 0, 0, 0, none⟩

/-- `template.DataRepTemplate`, restricted to the fields the extraction
code writes.  `ReferenceValue` is a Go `float64`; on the values these
paths produce it is exact, so it is modelled as a rational. -/
structure DataRepTemplate where
  TemplateNumber : Nat
  ReferenceValue : ℚ
  BinaryScaleFactor : Int
  DecimalScaleFactor : Int
  NumberOfBitsUsedForData : Nat
  TypeOfOriginalFieldValues : Nat
deriving DecidableEq, Repr

/-- The zero value of `DataRepTemplate`. -/
def DataRepTemplate.zero : DataRepTemplate := ⟨0, 0, 0, 0, 0, 0⟩

/-- `reader.FlatMessage`.  Interface-typed fields that flattening may
leave nil are `Option`s; `Identification`, `GridDef`, `ProductDef` and
`DataRepSec` are dereferenced unconditionally by the extraction code, so
flattening (below) only succeeds when they are present. -/
structure FlatMessage where
  index : Nat
  offset : Nat
  length : Nat
  discipline : Nat
  edition : Nat
  Centre : Nat
  SubCentre : Nat
  MasterTablesVersion : Nat
  LocalTablesVersion : Nat
  ReferenceTimeSignificance : Nat
  Year : Nat
  Month : Nat
  Day : Nat
  Hour : Nat
  Minute : Nat
  Second : Nat
  ProductionStatus : Nat
  TypeOfData : Nat
  Product : ProductTemplate
  Grid : GridTemplate
  DataRep : DataRepTemplate
  Indicator : Option Sec0
  Identification : Sec1
  LocalUse : Option Sec2
  GridDef : Sec3
  ProductDef : Sec4
  DataRepSec : Sec5
  Bitmap : Option Sec6
  Data : Option Sec7
  End : Option Sec8
deriving DecidableEq, Repr

/-- Modelled from the spec: the unexported `productDefinitionTemplate`
getter the extraction type-asserts on is not among the provided sources;
per the data model it returns the stored template bytes of Section 4. -/
def Sec4.templateBytes (s : Sec4) : List Nat := s.productDefinitionTemplate

/-- Modelled from the spec: the unexported `gridDefinitionTemplate`
getter the extraction type-asserts on is not among the provided sources;
per the data model it returns the stored template bytes of Section 3. -/
def Sec3.templateBytes (s : Sec3) : List Nat := s.gridDefinitionTemplate

/-- Modelled from the spec: the unexported `dataRepresentationTemplate`
getter the extraction type-asserts on is not among the provided sources;
per the data model it returns the stored template bytes of Section 5. -/
def Sec5.templateBytes (s : Sec5) : List Nat := s.dataRepresentationTemplate

/-- `FlatMessage.extractFromProductTemplate`: bails out below 34 bytes,
then reads the fixed-offset fields of product templates 4.0-alike, each
behind the source's length guard. -/
def extractFromProductTemplate (f : FlatMessage) (templateData : List Nat)
    (_templateNumber : Int) : FlatMessage :=
  if templateData.length < 34 then f
  else
    let p := f.Product
    let p := if 0 < templateData.length then
      { p with Category := templateData.getD 0 0 } else p
    let p := if 1 < templateData.length then
      { p with Parameter := templateData.getD 1 0 } else p
    let p := if 2 < templateData.length then
      { p with TypeOfGeneratingProcess := templateData.getD 2 0 } else p
    let p := if 3 < templateData.length then
      { p with BackgroundProcess := templateData.getD 3 0 } else p
    let p := if 4 < templateData.length then
      { p with GeneratingProcessIdentifier := templateData.getD 4 0 } else p
    let p := if 6 < templateData.length then
      { p with HoursAfterDataCutoff := be16 ((templateData.drop 5).take 2) } else p
    let p := if 7 < templateData.length then
      { p with MinutesAfterDataCutoff := templateData.getD 7 0 } else p
    let p := if 8 < templateData.length then
      { p with IndicatorOfUnitOfTimeRange := templateData.getD 8 0 } else p
    let p := if 12 < templateData.length then
      { p with ForecastTime := be32 ((templateData.drop 9).take 4) } else p
    let p := if 13 < templateData.length then
      { p with TypeOfFirstFixedSurface := templateData.getD 13 0 } else p
    let p := if 14 < templateData.length then
      { p with ScaleFactorOfFirstFixedSurface := twos8 (templateData.getD 14 0) } else p
    let p := if 18 < templateData.length then
      { p with ScaledValueOfFirstFixedSurface := be32 ((templateData.drop 15).take 4) } else p
    let p := if 19 < templateData.length then
      { p with TypeOfSecondFixedSurface := templateData.getD 19 0 } else p
    let p := if 20 < templateData.length then
      { p with ScaleFactorOfSecondFixedSurface := twos8 (templateData.getD 20 0) } else p
    let p := if 24 < templateData.length then
      { p with ScaledValueOfSecondFixedSurface := be32 ((templateData.drop 21).take 4) } else p
    { f with Product := p }

/-- `FlatMessage.extractFromGridTemplate`: only template number 0 with
at least 72 template bytes is handled; the lat/lon fields are read at
the source's fixed offsets, the two latitudes through Go's
two's-complement `int32(...)` conversion. -/
def extractFromGridTemplate (f : FlatMessage) (templateData : List Nat)
    (templateNumber : Int) : FlatMessage :=
  if templateNumber = 0 ∧ 72 ≤ templateData.length then
    let ll :=
      match f.Grid.LatLon with
      | some ll => ll
      | none => LatLonGrid.zero
    let ll := if 20 ≤ templateData.length then
      { ll with NumberOfGridPointsAlongX := be32 ((templateData.drop 16).take 4) } else ll
    let ll := if 24 ≤ templateData.length then
      { ll with NumberOfGridPointsAlongY := be32 ((templateData.drop 20).take 4) } else ll
    let ll := if 36 ≤ templateData.length then
      { ll with LatitudeOfFirstGridPoint := twos32 (be32 ((templateData.drop 32).take 4)) } else ll
    let ll := if 40 ≤ templateData.length then
      { ll with LongitudeOfFirstGridPoint := be32 ((templateData.drop 36).take 4) } else ll
    let ll := if 45 ≤ templateData.length then
      { ll with LatitudeOfLastGridPoint := twos32 (be32 ((templateData.drop 41).take 4)) } else ll
    let ll := if 49 ≤ templateData.length then
      { ll with LongitudeOfLastGridPoint := be32 ((templateData.drop 45).take 4) } else ll
    let ll := if 53 ≤ templateData.length then
      { ll with XDirectionIncrement := be32 ((templateData.drop 49).take 4) } else ll
    let ll := if 57 ≤ templateData.length then
      { ll with YDirectionIncrement := be32 ((templateData.drop 53).take 4) } else ll
    let ll := if 58 ≤ templateData.length then
      { ll with ScanningMode := templateData.getD 57 0 } else ll
    { f with Grid := { f.Grid with LatLon := some ll } }
  else f

/-- `FlatMessage.extractFromDataRepTemplate`: for templates of at least
21 bytes the common fields are read; the reference value is stored as
`float64(refRaw)` — the numeric value of the big-endian u32, exactly as
the source computes it. -/
def extractFromDataRepTemplate (f : FlatMessage) (templateData : List Nat)
    (_templateNumber : Int) : FlatMessage :=
  if 21 ≤ templateData.length then
    let d := f.DataRep
    let d := if 4 ≤ templateData.length then
      { d with ReferenceValue := ((be32 (templateData.take 4) : Nat) : ℚ) } else d
    let d := if 6 ≤ templateData.length then
      { d with BinaryScaleFactor := twos16 (be16 ((templateData.drop 4).take 2)) } else d
    let d := if 8 ≤ templateData.length then
      { d with DecimalScaleFactor := twos16 (be16 ((templateData.drop 6).take 2)) } else d
    let d := if 9 ≤ templateData.length then
      { d with NumberOfBitsUsedForData := templateData.getD 8 0 } else d
    let d := if 10 ≤ templateData.length then
      { d with TypeOfOriginalFieldValues := templateData.getD 9 0 } else d
    { f with DataRep := d }
  else f

/-- `FlatMessage.extractProductInfo`: the template number through the
truncating accessor, and the Section 1 identification fields. -/
def extractProductInfo (f : FlatMessage) : FlatMessage :=
  { f with
    Product := { f.Product with
      TemplateNumber := f.ProductDef.ProductDefinitionTemplateNumber },
    Centre := f.Identification.originatingCenter,
    SubCentre := f.Identification.originatingSubcenter,
    MasterTablesVersion := f.Identification.masterTablesVersion,
    LocalTablesVersion := f.Identification.localTablesVersion,
    ReferenceTimeSignificance := f.Identification.referenceTimeSignificance,
    Year := f.Identification.year,
    Month := f.Identification.month,
    Day := f.Identification.day,
    Hour := f.Identification.hour,
    Minute := f.Identification.minute,
    Second := f.Identification.second,
    ProductionStatus := f.Identification.productionStatus,
    TypeOfData := f.Identification.productType }

/-- `FlatMessage.extractGridInfo`: Section 3/5 header fields (template
numbers through the truncating accessors), then the three template
extractions via the template getters. -/
def extractGridInfo (f : FlatMessage) : FlatMessage :=
  let f := { f with
    Grid := ⟨f.GridDef.GridDefinitionTemplateNumber, f.GridDef.gridDefinitionSource,
      f.GridDef.numberOfDataPoints, f.GridDef.optionalListOctets,
      f.GridDef.optionalListInterpretation, f.Grid.LatLon⟩,
    DataRep := { f.DataRep with
      TemplateNumber := f.DataRepSec.DataRepresentationTemplateNumber } }
  let f := extractFromProductTemplate f f.ProductDef.templateBytes
    (f.ProductDef.ProductDefinitionTemplateNumber : Int)
  let f := extractFromGridTemplate f f.GridDef.templateBytes
    (f.GridDef.GridDefinitionTemplateNumber : Int)
  extractFromDataRepTemplate f f.DataRepSec.templateBytes
    (f.DataRep.TemplateNumber : Int)

/-- Build one `FlatMessage` for a data field (the loop body of
`FlattenToFlatMessages`); `none` models the nil dereference that a
missing required section would cause in the extraction. -/
def mkFlatMessage (m : RMessage) (lb : LocalBlock) (gb : GridBlock) (df : DataField)
    (idx : Nat) : Option FlatMessage := do
  let ident ← m.Identification
  let gd ← gb.GridDef
  let pd ← df.ProductDef
  let dr ← df.DataRep
  let base : FlatMessage :=
    ⟨idx, m.Info.offset, m.Info.length, m.Info.discipline, m.Info.edition,
      0, 0, 0, 0, 0, 0, 0, 0, 0, 0, 0, 0, 0,
      ProductTemplate.zero, GridTemplate.zero, DataRepTemplate.zero,
      m.Indicator, ident, lb.LocalUse, gd, pd, dr, df.Bitmap, df.Data, m.End⟩
  some (extractGridInfo (extractProductInfo base))

/-- The field loop of `FlattenToFlatMessages`. -/
def flattenFieldsLoop (m : RMessage) (lb : LocalBlock) (gb : GridBlock) :
    List DataField → List FlatMessage → Option (List FlatMessage)
  | [], acc => some acc
  | df :: rest, acc =>
    match mkFlatMessage m lb gb df acc.length with
    | none => none
    | some fm => flattenFieldsLoop m lb gb rest (acc ++ [fm])

/-- The grid loop of `FlattenToFlatMessages`. -/
def flattenGridsLoop (m : RMessage) (lb : LocalBlock) :
    List GridBlock → List FlatMessage → Option (List FlatMessage)
  | [], acc => some acc
  | gb :: rest, acc =>
    match flattenFieldsLoop m lb gb gb.Fields acc with
    | none => none
    | some acc' => flattenGridsLoop m lb rest acc'

/-- The local-block loop of `FlattenToFlatMessages`. -/
def flattenBlocksLoop (m : RMessage) :
    List LocalBlock → List FlatMessage → Option (List FlatMessage)
  | [], acc => some acc
  | lb :: rest, acc =>
    match flattenGridsLoop m lb lb.Grids acc with
    | none => none
    | some acc' => flattenBlocksLoop m rest acc'

/-- `Message.FlattenToFlatMessages`: one `FlatMessage` per data field,
indexed sequentially. -/
def flattenToFlatMessages (m : RMessage) : Option (List FlatMessage) :=
  flattenBlocksLoop m m.Blocks []

theorem flattenFieldsLoop_length {m : RMessage} {lb : LocalBlock} {gb : GridBlock} :
    ∀ (dfs : List DataField) (acc r : List FlatMessage),
      flattenFieldsLoop m lb gb dfs acc = some r → r.length = acc.length + dfs.length := by
  intro dfs
  induction dfs with
  | nil => intro acc r h; cases h; simp
  | cons df rest ih =>
    intro acc r h
    unfold flattenFieldsLoop at h
    cases hmk : mkFlatMessage m lb gb df acc.length with
    | none => rw [hmk] at h; cases h
    | some fm =>
      rw [hmk] at h
      have := ih (acc ++ [fm]) r h
      simp at this
      simp
      omega

theorem flattenGridsLoop_length {m : RMessage} {lb : LocalBlock} :
    ∀ (gbs : List GridBlock) (acc r : List FlatMessage),
      flattenGridsLoop m lb gbs acc = some r →
      r.length = acc.length + (gbs.map (fun gb => gb.Fields.length)).sum := by
  intro gbs
  induction gbs with
  | nil => intro acc r h; cases h; simp
  | cons gb rest ih =>
    intro acc r h
    unfold flattenGridsLoop at h
    cases hf : flattenFieldsLoop m lb gb gb.Fields acc with
    | none => rw [hf] at h; cases h
    | some acc' =>
      rw [hf] at h
      have h1 := flattenFieldsLoop_length gb.Fields acc acc' hf
      have h2 := ih acc' r h
      simp at h2 ⊢
      omega

theorem flattenBlocksLoop_length {m : RMessage} :
    ∀ (lbs : List LocalBlock) (acc r : List FlatMessage),
      flattenBlocksLoop m lbs acc = some r →
      r.length = acc.length +
        (lbs.map (fun lb => (lb.Grids.map (fun gb => gb.Fields.length)).sum)).sum := by
  intro lbs
  induction lbs with
  | nil => intro acc r h; cases h; simp
  | cons lb rest ih =>
    intro acc r h
    unfold flattenBlocksLoop at h
    cases hg : flattenGridsLoop m lb lb.Grids acc with
    | none => rw [hg] at h; cases h
    | some acc' =>
      rw [hg] at h
      have h1 := flattenGridsLoop_length lb.Grids acc acc' hg
      have h2 := ih acc' r h
      simp at h2 ⊢
      omega

/-- Section values of Scenario D: a single message whose section-number
sequence is [0,1,3,4,5,7,4,5,7,8]. -/
def s0D : Sec0 := ⟨gribMagic, [0, 0], 0, 2, 105⟩

def s1D : Sec1 := ⟨21, 1, 7, 0, 2, 1, 1, 2024, 3, 15, 12, 0, 0, 0, 0, []⟩

def s3D : Sec3 := ⟨14, 3, 0, 100, 0, 0, 0, [], []⟩

def s4D : Sec4 := ⟨9, 4, 0, 0, [], []⟩

def s5D : Sec5 := ⟨11, 5, 0, 0, []⟩

def s7D : Sec7 := ⟨5, 7, 0, [], [], false, true, false, none⟩

def s8D : Sec8 := ⟨endMagic⟩

/-- The Scenario D section stream. -/
def scenarioD : List Sec :=
  [.sec0 s0D, .sec1 s1D, .sec3 s3D, .sec4 s4D, .sec5 s5D, .sec7 s7D,
   .sec4 s4D, .sec5 s5D, .sec7 s7D, .sec8 s8D]

/-- The message the assembler builds from Scenario D. -/
def msgD : RMessage :=
  ⟨⟨0, 0, 105, 0, 2,
      [⟨0, 0, 16⟩, ⟨1, 16, 21⟩, ⟨3, 37, 14⟩, ⟨4, 51, 9⟩, ⟨5, 60, 11⟩,
       ⟨7, 71, 5⟩, ⟨4, 76, 9⟩, ⟨5, 85, 11⟩, ⟨7, 96, 5⟩, ⟨8, 101, 4⟩]⟩,
    some s0D, some s1D,
    [⟨none, [⟨some s3D,
      [⟨some s4D, some s5D, none, some s7D⟩,
       ⟨some s4D, some s5D, none, some s7D⟩]⟩]⟩],
    some s8D⟩

/-- C3: the number of `FlatMessage`s produced by flattening equals the
sum over local blocks and grid blocks of the number of data fields; and
the single message with section sequence [0,1,3,4,5,7,4,5,7,8]
assembles into exactly one local block with no local-use section,
holding one grid block with two data fields, which flattens to exactly
2 flat messages. -/
theorem C3_flatten_count :
    (∀ m : RMessage,
      match flattenToFlatMessages m with
      | none => True
      | some l => l.length =
          (m.Blocks.map
            (fun lb => (lb.Grids.map (fun gb => gb.Fields.length)).sum)).sum) ∧
    buildMessages scenarioD = .ok [msgD] ∧
    msgD.Blocks = [⟨none, [⟨some s3D,
      [⟨some s4D, some s5D, none, some s7D⟩,
       ⟨some s4D, some s5D, none, some s7D⟩]⟩]⟩] ∧
    (flattenToFlatMessages msgD).map List.length = some 2 := by
  refine ⟨?_, by rfl, by rfl, by rfl⟩
  intro m
  cases hf : flattenToFlatMessages m with
  | none => trivial
  | some l =>
    have := flattenBlocksLoop_length m.Blocks [] l hf
    simpa using this

/-- Sections of the C6 scenario: an S5 arrives with no open data field
(no S4 preceded it). -/
def scenarioC6 : List Sec :=
  [.sec0 ⟨gribMagic, [0, 0], 0, 2, 66⟩, .sec1 s1D, .sec3 s3D, .sec5 s5D, .sec8 s8D]

/-- The message the assembler builds from the C6 scenario: the dangling
S5 has simply vanished (the grid block has no fields). -/
def msgC6 : RMessage :=
  ⟨⟨0, 0, 66, 0, 2,
      [⟨0, 0, 16⟩, ⟨1, 16, 21⟩, ⟨3, 37, 14⟩, ⟨5, 51, 11⟩, ⟨8, 62, 4⟩]⟩,
    some ⟨gribMagic, [0, 0], 0, 2, 66⟩, some s1D,
    [⟨none, [⟨some s3D, []⟩]⟩], some s8D⟩

/-- C6 counterexample: a Section 5 that does not follow a Section 4 is
processed by the assembler without any error — `buildMessages` returns
`.ok` and the S5 is silently dropped (the built grid block has an empty
field list), so no OutOfOrder error is reported. -/
theorem C6_counterexample_s5_no_error :
    buildMessages scenarioC6 = .ok [msgC6] := by rfl

/-- C6 (amended): when the assembler sees a Section 5 with no open data
field it silently ignores the section: the state is unchanged apart
from the offset advancing past the section, and `buildMessages` never
returns an error for any section stream. -/
theorem C6_amended_s5_silently_ignored (allSecs : List Sec) (st : BuildState)
    (i : Nat) (s5 : Sec5) (hdf : st.currentDataField = none)
    (hnum : s5.sectionNumber = 5) :
    buildStep allSecs st i (.sec5 s5) =
      ⟨st.messages, st.currentMessage, st.currentLocalBlock, st.currentGridBlock,
        none, st.offset + s5.length⟩ ∧
    ∀ secs : List Sec, ∃ msgs, buildMessages secs = .ok msgs := by
  constructor
  · obtain ⟨msgs, cm, clb, cgb, cdf, off⟩ := st
    simp only at hdf
    subst hdf
    simp [buildStep, Sec.secNum, hnum, Sec.getLength]
  · intro secs
    exact ⟨_, rfl⟩

theorem C6_amended_s5_silently_ignored_witness :
    buildStep [] ⟨[], none, none, none, none, 0⟩ 0 (.sec5 s5D) =
      ⟨[], none, none, none, none, 11⟩ :=
  (C6_amended_s5_silently_ignored [] ⟨[], none, none, none, none, 0⟩ 0 s5D
    rfl rfl).1

/-- C9 (amended): the template-number accessors of Sections 3, 4 and 5
return only the low 8 bits of the template number: the wire value is
parsed and stored as the full big-endian u16, but each accessor applies
a `uint8(...)` conversion, so values of 256 or greater are truncated
modulo 256. -/
theorem C9_amended_template_number_truncated :
    (∀ s : Sec3, s.GridDefinitionTemplateNumber =
      s.gridDefinitionTemplateNumber % 256) ∧
    (∀ s : Sec4, s.ProductDefinitionTemplateNumber =
      s.productDefinitionTemplateNumber % 256) ∧
    (∀ s : Sec5, s.DataRepresentationTemplateNumber =
      s.dataRepresentationTemplateNumber % 256) ∧
    (∀ (data : List Nat) (s : Sec3), NewSection3FromBytes data = .ok s →
      s.gridDefinitionTemplateNumber = be16 ((data.drop 12).take 2)) ∧
    (∀ (data : List Nat) (s : Sec4), NewSection4FromBytes data = .ok s →
      s.productDefinitionTemplateNumber = be16 ((data.drop 7).take 2)) ∧
    (∀ (data : List Nat) (s : Sec5), NewSection5FromBytes data = .ok s →
      s.dataRepresentationTemplateNumber = be16 ((data.drop 9).take 2)) := by
  refine ⟨fun s => rfl, fun s => rfl, fun s => rfl, ?_, ?_, ?_⟩
  · intro data s h
    unfold NewSection3FromBytes at h
    split at h
    · cases h
    · dsimp only at h
      split at h
      · cases h
      · split at h
        · split at h
          · cases h
          · cases h
            rfl
        · cases h
          rfl
  · intro data s h
    unfold NewSection4FromBytes at h
    split at h
    · cases h
    · dsimp only at h
      split at h
      · cases h
      · split at h
        · split at h
          · cases h
          · cases h
            rfl
        · cases h
          rfl
  · intro data s h
    unfold NewSection5FromBytes at h
    split at h
    · cases h
    · dsimp only at h
      split at h
      · cases h
      · cases h
        rfl

theorem C9_amended_template_number_truncated_witness :
    (⟨14, 3, 0, 100, 0, 0, 256, [], []⟩ : Sec3).GridDefinitionTemplateNumber =
      256 % 256 ∧
    (⟨14, 3, 0, 100, 0, 0, 256, [], []⟩ : Sec3).gridDefinitionTemplateNumber =
      be16 (([0, 0, 0, 14, 3, 0, 0, 0, 0, 100, 0, 0, 1, 0].drop 12).take 2) :=
  ⟨(C9_amended_template_number_truncated).1 ⟨14, 3, 0, 100, 0, 0, 256, [], []⟩,
   (C9_amended_template_number_truncated).2.2.2.1
     [0, 0, 0, 14, 3, 0, 0, 0, 0, 100, 0, 0, 1, 0]
     ⟨14, 3, 0, 100, 0, 0, 256, [], []⟩ (by rfl)⟩

/-- C9 counterexample: sections decoded from wire bytes carrying
template number 256 store 256 internally, but every accessor returns 0,
not the full 16-bit value the claim asserts. -/
theorem C9_counterexample_template_number_256 :
    NewSection3FromBytes [0, 0, 0, 14, 3, 0, 0, 0, 0, 100, 0, 0, 1, 0] =
      .ok ⟨14, 3, 0, 100, 0, 0, 256, [], []⟩ ∧
    (⟨14, 3, 0, 100, 0, 0, 256, [], []⟩ : Sec3).GridDefinitionTemplateNumber = 0 ∧
    NewSection4FromBytes [0, 0, 0, 9, 4, 0, 0, 1, 0] =
      .ok ⟨9, 4, 0, 256, [], []⟩ ∧
    (⟨9, 4, 0, 256, [], []⟩ : Sec4).ProductDefinitionTemplateNumber = 0 ∧
    NewSection5FromBytes [0, 0, 0, 11, 5, 0, 0, 0, 0, 1, 0] =
      .ok ⟨11, 5, 0, 256, []⟩ ∧
    (⟨11, 5, 0, 256, []⟩ : Sec5).DataRepresentationTemplateNumber = 0 ∧
    (0 : Nat) ≠ 256 :=
  ⟨rfl, rfl, rfl, rfl, rfl, rfl, by decide⟩

/-- A flat message whose template-bearing sections are blank, used to
evaluate the extraction functions in isolation. -/
def blankFlat : FlatMessage :=
  ⟨0, 0, 0, 0, 0, 0, 0, 0, 0, 0, 0, 0, 0, 0, 0, 0, 0, 0,
    ProductTemplate.zero, GridTemplate.zero, DataRepTemplate.zero,
    none, ⟨21, 1, 0, 0, 0, 0, 0, 0, 0, 0, 0, 0, 0, 0, 0, []⟩, none,
    ⟨14, 3, 0, 0, 0, 0, 0, [], []⟩, ⟨9, 4, 0, 0, [], []⟩, ⟨11, 5, 0, 0, []⟩,
    none, none, none⟩

/-- The 21-byte Section 5 template whose first four bytes are the IEEE
754 binary32 encoding of 52.0 (0x42500000). -/
def c1Template : List Nat := [66, 80, 0, 0] ++ List.replicate 17 0

/-- C1: the extraction stores `float64(refRaw)` — the numeric value of
the big-endian u32 (1112539136) — where the claim (and the spec, which
flags this very line as a bug) requires the IEEE 754 binary32
reinterpretation (52).  Evaluating the code at the failing input shows
the divergence. -/
theorem C1_referencevalue_code_bug :
    (extractFromDataRepTemplate blankFlat c1Template 0).DataRep.ReferenceValue =
      ((1112539136 : Nat) : ℚ) ∧
    ieee32ToRat (be32 (c1Template.take 4)) = 52 ∧
    ((1112539136 : Nat) : ℚ) ≠ 52 := by
  refine ⟨by rfl, ?_, by norm_num⟩
  show ieee32ToRat 1112539136 = 52
  norm_num [ieee32ToRat]

/-- The 72-byte Section 3 template 0 whose bytes [32..36) hold the
sign-magnitude encoding of -1 microdegree (0x80000001). -/
def c2Template : List Nat :=
  List.replicate 32 0 ++ [128, 0, 0, 1] ++ List.replicate 36 0

/-- C2: the extraction converts the latitude word with Go's
two's-complement `int32(...)` (giving -2147483647 here) where the claim
(and the spec's WMO convention note) requires sign-magnitude decoding
(giving -1).  Evaluating the code at the failing input shows the
divergence. -/
theorem C2_latitude_code_bug :
    Option.map LatLonGrid.LatitudeOfFirstGridPoint
        ((extractFromGridTemplate blankFlat c2Template 0).Grid.LatLon) =
      some (-2147483647) ∧
    signMag32 (be32 ((c2Template.drop 32).take 4)) = -1 ∧
    ((-2147483647 : Int) ≠ -1) := by
  refine ⟨by rfl, ?_, by decide⟩
  show signMag32 2147483649 = -1
  norm_num [signMag32]

/-- C8 (amended): for the positioned `ReaderAt.EachMessage`, if the
callback stops at the k-th of k well-formed messages laid out in the
prefix, the callback is invoked exactly k times and the reader returns
without error, whatever bytes follow the k-th message's boundary.  (The
sequential `Reader.EachMessage` does not satisfy this: it reads every
section of the whole stream before the first callback, so later junk is
reported as an error — see the counterexample.) -/
theorem C8_amended_early_stop (pre suf : List Nat) (ms : List MsgLayout)
    (fn : Nat → MessageInfo → Bool)
    (hchain : WFChain pre 0 ms) (hstops : StopsAt fn 0 ms) :
    eachMessageAt (pre ++ suf) fn = .ok (traceOf 0 ms) ∧
    (traceOf 0 ms).length = ms.length := by
  refine ⟨?_, traceOf_length ms 0⟩
  unfold eachMessageAt
  apply each_stopsAt ms 0 0 _ (wfChain_append suf hchain) hstops
  rcases wfChain_bound hchain with h | h
  · subst h
    simp
  · simp only [List.length_append]
    omega

theorem C8_amended_early_stop_witness :
    eachMessageAt ((oneMsgBytes ++ oneMsgBytes) ++ [0, 0, 0, 0, 9])
      (fun i _ => i == 0) = .ok (traceOf 0 [oneMsgLayout, sndMsgLayout]) ∧
    (traceOf 0 [oneMsgLayout, sndMsgLayout]).length = 2 :=
  C8_amended_early_stop (oneMsgBytes ++ oneMsgBytes) [0, 0, 0, 0, 9]
    [oneMsgLayout, sndMsgLayout] (fun i _ => i == 0)
    (.cons oneMsgLayout [sndMsgLayout] 0 rfl
      ⟨[71, 82, 73, 66, 0, 0, 0, 2, 0, 0, 0, 0, 0, 0, 0, 20],
        rfl, rfl, rfl, rfl, rfl, .last 16 rfl⟩
      (.cons sndMsgLayout [] 20 rfl
        ⟨[71, 82, 73, 66, 0, 0, 0, 2, 0, 0, 0, 0, 0, 0, 0, 20],
          rfl, rfl, rfl, rfl, rfl, .last 36 rfl⟩
        (.nil 40)))
    ⟨rfl, rfl⟩

/-- C8 counterexample: the claim also covers the sequential
`Reader.EachMessage`, which pre-reads every section of the whole byte
source before invoking any callback.  On a stream holding one
well-formed message followed by 5 junk bytes whose fifth byte is 9, a
const-false callback (stop on the 1st invocation) is never invoked at
all and `EachMessage` returns the format error from beyond the first
message's boundary — whereas the positioned reader on the very same
stream invokes it exactly once and returns cleanly. -/
theorem C8_counterexample_sequential_reader :
    seqEachMessage (oneMsgBytes ++ [0, 0, 0, 0, 9]) (fun _ _ => false) =
      .error .invalidSectionMarker ∧
    eachMessageAt (oneMsgBytes ++ [0, 0, 0, 0, 9]) (fun _ _ => false) =
      .ok [(0, ⟨0, 0, 20, 0, 2, [⟨0, 0, 16⟩, ⟨8, 16, 4⟩]⟩)] :=
  ⟨rfl, rfl⟩

/-- A reachable intermediate state of a Section 7 handle over a
sufficient upstream: `k` payload bytes buffered, reader attached until
`dataSize` is reached. -/
def midS7 (length dataSize : Nat) (payload : List Nat) (k : Nat) : Sec7 :=
  ⟨length, 7, dataSize, payload.take k, payload.drop k, false,
    decide (k < dataSize), decide (dataSize ≤ k), none⟩

/-- A fresh Section 7 handle over a data-only upstream that delivers its
bytes and then EOF. -/
def freshS7 (length dataSize : Nat) (payload : List Nat) : Sec7 :=
  ⟨length, 7, dataSize, [], payload, false, true, false, none⟩

/-- A fresh Section 7 handle over an upstream that delivers its bytes
and then fails with a non-EOF error. -/
def freshS7Bad (length dataSize : Nat) (payload : List Nat) : Sec7 :=
  ⟨length, 7, dataSize, [], payload, true, true, false, none⟩

theorem s7FillLoop_done {dataSize target fuel : Nat} {buffer upstream : List Nat}
    {hr bad : Bool} (h : target ≤ buffer.length) :
    s7FillLoop dataSize target fuel (buffer, upstream) hr bad =
      (0, buffer, upstream, hr, false, none) := by
  cases fuel with
  | zero => rfl
  | succ fuel =>
    unfold s7FillLoop
    rw [if_neg]
    simp
    omega

/-- Completing fill: with enough upstream bytes the loop grows the
buffer to exactly `target`, detaching the reader exactly when `target`
is the full `dataSize`. -/
theorem s7FillLoop_reach (dataSize : Nat) (bad : Bool) :
    ∀ (fuel : Nat) (buffer upstream : List Nat) (target : Nat),
      buffer.length < target → target ≤ dataSize →
      target ≤ buffer.length + upstream.length → upstream.length < fuel →
      ∃ n, s7FillLoop dataSize target fuel (buffer, upstream) true bad =
        (n, buffer ++ upstream.take (target - buffer.length),
          upstream.drop (target - buffer.length),
          decide (target < dataSize), decide (dataSize ≤ target), none) := by
  intro fuel
  induction fuel with
  | zero => intro buffer upstream target h1 h2 h3 h4; omega
  | succ fuel ih =>
    intro buffer upstream target h1 h2 h3 h4
    unfold s7FillLoop
    rw [if_pos (by simp; omega)]
    cases upstream with
    | nil => simp at h3; omega
    | cons u us =>
      simp only
      have hchunk1 : 1 ≤ min 65536 (target - buffer.length) := by omega
      have hlenchunk : min 65536 (target - buffer.length) ≤ (u :: us).length := by
        simp at h3 ⊢
        omega
      have htaken : ((u :: us).take (min 65536 (target - buffer.length))).length =
          min 65536 (target - buffer.length) := by
        rw [List.length_take]
        omega
      by_cases hfull : dataSize ≤
          (buffer ++ (u :: us).take (min 65536 (target - buffer.length))).length
      · -- the buffer reached dataSize: target = dataSize and the chunk was the need
        rw [if_pos hfull]
        have hlen : (buffer ++ (u :: us).take
            (min 65536 (target - buffer.length))).length =
            buffer.length + min 65536 (target - buffer.length) := by
          simp [htaken]
        have heq : min 65536 (target - buffer.length) = target - buffer.length := by
          omega
        have htgt : target = dataSize := by omega
        refine ⟨((u :: us).take (min 65536 (target - buffer.length))).length, ?_⟩
        rw [heq, htgt]
        rw [decide_eq_false (by omega : ¬ dataSize < dataSize),
          decide_eq_true (le_refl dataSize)]
      · rw [if_neg hfull]
        by_cases hshort : min 65536 (target - buffer.length) < target - buffer.length
        · -- a full 64 KiB chunk, more to read: recurse
          have hrec := ih (buffer ++ (u :: us).take (min 65536 (target - buffer.length)))
            ((u :: us).drop (min 65536 (target - buffer.length))) target
            (by simp [htaken]; omega) h2
            (by simp [htaken]; simp at h3; omega)
            (by simp; simp at h4; omega)
          obtain ⟨n, hn⟩ := hrec
          rw [hn]
          refine ⟨((u :: us).take (min 65536 (target - buffer.length))).length + n, ?_⟩
          have e1 : buffer ++ (u :: us).take (min 65536 (target - buffer.length)) ++
              ((u :: us).drop (min 65536 (target - buffer.length))).take
                (target - (buffer ++ (u :: us).take
                  (min 65536 (target - buffer.length))).length) =
              buffer ++ (u :: us).take (target - buffer.length) := by
            rw [List.append_assoc]
            congr 1
            rw [List.length_append, htaken, ← List.take_add]
            congr 1
            omega
          have e2 : ((u :: us).drop (min 65536 (target - buffer.length))).drop
              (target - (buffer ++ (u :: us).take
                (min 65536 (target - buffer.length))).length) =
              (u :: us).drop (target - buffer.length) := by
            rw [List.drop_drop, List.length_append, htaken]
            congr 1
            omega
          rw [e1, e2]
        · -- the chunk covered the whole need: the loop exits on re-entry
          have heq : min 65536 (target - buffer.length) = target - buffer.length := by
            omega
          rw [s7FillLoop_done (by simp [htaken]; omega)]
          refine ⟨((u :: us).take (min 65536 (target - buffer.length))).length + 0, ?_⟩
          rw [heq]
          rw [decide_eq_true (by simp [htaken] at hfull; omega : target < dataSize),
            decide_eq_false (by simp [htaken] at hfull; omega : ¬ dataSize ≤ target)]

theorem s7ReadChunk_mid {L dataSize k needed : Nat} {payload : List Nat}
    (hpay : dataSize ≤ payload.length) (hk : k ≤ dataSize)
    (hneed : needed ≤ dataSize) :
    (s7ReadChunk needed (midS7 L dataSize payload k)).2 =
      midS7 L dataSize payload (max k needed) := by
  have hbuf : (payload.take k).length = k := by
    rw [List.length_take]
    omega
  unfold s7ReadChunk
  by_cases hfull : dataSize ≤ k
  · have hkd : k = dataSize := le_antisymm hk hfull
    rw [if_pos (by simp [midS7, hkd])]
    have : max k needed = k := by omega
    rw [this]
  · rw [if_neg (by simp [midS7]; omega)]
    by_cases hkn : needed ≤ k
    · rw [if_pos (by simp [midS7, hbuf]; omega)]
      have : max k needed = k := by omega
      rw [this]
    · rw [if_neg (by simp [midS7, hbuf]; omega)]
      have hmax : max k needed = needed := by omega
      have hmin : min needed dataSize = needed := by omega
      obtain ⟨n, hn⟩ := s7FillLoop_reach dataSize false
        ((payload.drop k).length + 1) (payload.take k) (payload.drop k)
        (min needed dataSize)
        (by rw [hbuf]; omega) (by omega)
        (by rw [hbuf, List.length_drop]; omega) (by omega)
      rw [hbuf] at hn
      simp only [midS7]
      rw [decide_eq_true (show k < dataSize by omega),
        decide_eq_false (show ¬ dataSize ≤ k by omega)]
      rw [hn]
      simp only [Bool.false_or]
      rw [hmax, hmin]
      have e1 : payload.take k ++ (payload.drop k).take (needed - k) =
          payload.take needed := by
        rw [← List.take_add]
        congr 1
        omega
      have e2 : (payload.drop k).drop (needed - k) = payload.drop needed := by
        rw [List.drop_drop]
        congr 1
        omega
      rw [e1, e2]

theorem s7Data_mid {L dataSize k : Nat} {payload : List Nat}
    (hpay : dataSize ≤ payload.length) (hk : k ≤ dataSize) :
    s7Data (midS7 L dataSize payload k) =
      (some (payload.take dataSize), midS7 L dataSize payload dataSize) := by
  unfold s7Data
  have hc : (s7ReadChunk (midS7 L dataSize payload k).dataSize
      (midS7 L dataSize payload k)).2 = midS7 L dataSize payload dataSize := by
    have := @s7ReadChunk_mid L _ _ _ payload hpay hk (le_refl dataSize)
    simpa [midS7, Nat.max_eq_right hk] using this
  rw [hc]
  rw [if_neg (by simp [midS7])]
  rfl

theorem s7ReaderRead_mid_step {L dataSize k b : Nat} {payload : List Nat}
    (hpay : dataSize ≤ payload.length) (hb : 1 ≤ b) (hk : k < dataSize) :
    s7ReaderRead b k (midS7 L dataSize payload k) =
      (.ok ((payload.take (min (k + b) dataSize)).drop k), min (k + b) dataSize,
        midS7 L dataSize payload (min (k + b) dataSize)) := by
  have hm1 : k + 1 ≤ min (k + b) dataSize := by omega
  have hm2 : min (k + b) dataSize ≤ dataSize := by omega
  unfold s7ReaderRead
  dsimp only
  have hneed : (if (midS7 L dataSize payload k).dataSize < k + b then
      (midS7 L dataSize payload k).dataSize else k + b) = min (k + b) dataSize := by
    have hd : (midS7 L dataSize payload k).dataSize = dataSize := rfl
    rw [hd]
    by_cases hlt : dataSize < k + b
    · rw [if_pos hlt]
      omega
    · rw [if_neg hlt]
      omega
  rw [hneed]
  have hc := @s7ReadChunk_mid L _ _ _ payload hpay (le_of_lt hk) hm2
  rw [Nat.max_eq_right (by omega)] at hc
  rw [hc]
  have hre : (midS7 L dataSize payload (min (k + b) dataSize)).readErr = none := rfl
  rw [hre]
  dsimp only
  have hblen : ((midS7 L dataSize payload (min (k + b) dataSize)).buffer).length =
      min (k + b) dataSize := by
    simp [midS7]
    omega
  simp only [hblen]
  rw [if_neg (by omega)]
  have htc : min (min (k + b) dataSize - k) b = min (k + b) dataSize - k := by
    omega
  rw [htc]
  have hbytes : (((midS7 L dataSize payload (min (k + b) dataSize)).buffer).drop
      k).take (min (k + b) dataSize - k) =
      (payload.take (min (k + b) dataSize)).drop k := by
    rw [show (midS7 L dataSize payload (min (k + b) dataSize)).buffer =
      payload.take (min (k + b) dataSize) from rfl]
    apply List.take_of_length_le
    simp
    omega
  rw [hbytes]
  have hoff : k + (min (k + b) dataSize - k) = min (k + b) dataSize := by omega
  rw [hoff]

theorem s7ReaderRead_mid_eof {L dataSize b : Nat} {payload : List Nat}
    (hpay : dataSize ≤ payload.length) :
    s7ReaderRead b dataSize (midS7 L dataSize payload dataSize) =
      (.error .eof, dataSize, midS7 L dataSize payload dataSize) := by
  unfold s7ReaderRead
  dsimp only
  have hneed : (if (midS7 L dataSize payload dataSize).dataSize < dataSize + b then
      (midS7 L dataSize payload dataSize).dataSize else dataSize + b) ≤ dataSize := by
    have hd : (midS7 L dataSize payload dataSize).dataSize = dataSize := rfl
    rw [hd]
    by_cases hlt : dataSize < dataSize + b
    · rw [if_pos hlt]
    · rw [if_neg hlt]
      omega
  have hc := @s7ReadChunk_mid L _ _ _ payload hpay (le_refl dataSize) hneed
  rw [Nat.max_eq_left (by omega)] at hc
  rw [hc]
  have hre : (midS7 L dataSize payload dataSize).readErr = none := rfl
  rw [hre]
  dsimp only
  have hblen : ((midS7 L dataSize payload dataSize).buffer).length = dataSize := by
    simp [midS7]
    omega
  simp only [hblen]
  rw [if_pos (by omega)]

theorem s7ReadToEnd_mid {L dataSize b : Nat} {payload : List Nat}
    (hpay : dataSize ≤ payload.length) (hb : 1 ≤ b) :
    ∀ j fuel k acc, k ≤ dataSize → j = dataSize - k → j + 2 ≤ fuel →
      s7ReadToEnd b fuel k (midS7 L dataSize payload k) acc =
        .ok (acc ++ (payload.take dataSize).drop k, midS7 L dataSize payload dataSize) := by
  intro j
  induction j using Nat.strong_induction_on with
  | _ j ih =>
    intro fuel k acc hk hj hf
    match fuel, hf with
    | fuel + 1, hf =>
      unfold s7ReadToEnd
      by_cases hkd : k = dataSize
      · subst hkd
        rw [s7ReaderRead_mid_eof hpay]
        simp
      · have hklt : k < dataSize := lt_of_le_of_ne hk hkd
        rw [s7ReaderRead_mid_step hpay hb hklt]
        dsimp only
        have hrec := ih (dataSize - min (k + b) dataSize) (by omega) fuel
          (min (k + b) dataSize) (acc ++ (payload.take (min (k + b) dataSize)).drop k)
          (by omega) rfl (by omega)
        rw [hrec]
        have e0 : payload.take (min (k + b) dataSize) =
            (payload.take dataSize).take (min (k + b) dataSize) := by
          rw [List.take_take]
          congr 1
          omega
        have e1 : (payload.take (min (k + b) dataSize)).drop k =
            ((payload.take dataSize).drop k).take (min (k + b) dataSize - k) := by
          rw [e0, List.drop_take]
        have e2 : ((payload.take dataSize).drop k).drop (min (k + b) dataSize - k) =
            (payload.take dataSize).drop (min (k + b) dataSize) := by
          rw [List.drop_drop]
          congr 1
          omega
        rw [e1, List.append_assoc, ← e2, List.take_append_drop]

theorem s7FillLoop_bad :
    ∀ (fuel : Nat) (buffer upstream : List Nat) (target dataSize : Nat),
      buffer.length < target → target ≤ dataSize →
      buffer.length + upstream.length < target → upstream.length < fuel →
      ∃ n, s7FillLoop dataSize target fuel (buffer, upstream) true true =
        (n, buffer ++ upstream, [], true, false, some .ioFailure) := by
  intro fuel
  induction fuel with
  | zero => intro buffer upstream target dataSize h1 h2 h3 h4; omega
  | succ fuel ih =>
    intro buffer upstream target dataSize h1 h2 h3 h4
    unfold s7FillLoop
    rw [if_pos (by simp; omega)]
    cases upstream with
    | nil => simp
    | cons u us =>
      simp only
      have hlen : ((u :: us).take (min 65536 (target - buffer.length))).length =
          min (min 65536 (target - buffer.length)) (u :: us).length := by
        simp
      rw [if_neg (by rw [List.length_append, hlen]; simp at h3 ⊢; omega)]
      have hrec := ih (buffer ++ (u :: us).take (min 65536 (target - buffer.length)))
        ((u :: us).drop (min 65536 (target - buffer.length))) target dataSize
        (by rw [List.length_append, hlen]; simp at h3 ⊢; omega) h2
        (by rw [List.length_append, hlen]; simp at h3 ⊢; omega)
        (by simp at h4 ⊢; omega)
      obtain ⟨n, hn⟩ := hrec
      rw [hn]
      refine ⟨((u :: us).take (min 65536 (target - buffer.length))).length + n, ?_⟩
      rw [List.append_assoc, List.take_append_drop]

/-- C7: over an upstream that delivers the full payload, `Data()`
returns exactly the `dataSize` payload bytes, calling it again returns
the same bytes with the handle unchanged (idempotence), and draining
`DataReader()` with reads of any positive size yields the same byte
sequence. -/
theorem C7_lazy_data_equivalence (length dataSize b : Nat) (payload : List Nat)
    (h : dataSize ≤ payload.length) (hb : 1 ≤ b) :
    NewSection7FromDataReader length 7 payload false =
      freshS7 length ((length + 2 ^ 32 - 5) % 2 ^ 32) payload ∧
    (s7Data (freshS7 length dataSize payload)).1 = some (payload.take dataSize) ∧
    (payload.take dataSize).length = dataSize ∧
    s7Data ((s7Data (freshS7 length dataSize payload)).2) =
      (some (payload.take dataSize), (s7Data (freshS7 length dataSize payload)).2) ∧
    ∃ stf, s7DataReaderToEnd b (freshS7 length dataSize payload) =
      .ok (payload.take dataSize, stf) := by
  refine ⟨rfl, ?_⟩
  by_cases hds : dataSize = 0
  · subst hds
    have hdata : s7Data (freshS7 length 0 payload) =
        (some [], freshS7 length 0 payload) := rfl
    have hstep : s7ReaderRead b 0 (freshS7 length 0 payload) =
        (.error .eof, 0, freshS7 length 0 payload) := by
      unfold s7ReaderRead
      dsimp only
      have hneed : (if (freshS7 length 0 payload).dataSize < 0 + b then
          (freshS7 length 0 payload).dataSize else 0 + b) = 0 := by
        rw [show (freshS7 length 0 payload).dataSize = 0 from rfl]
        rw [if_pos (by omega)]
      rw [hneed]
      have hchunk : (s7ReadChunk 0 (freshS7 length 0 payload)).2 =
          freshS7 length 0 payload := rfl
      rw [hchunk]
      rw [show (freshS7 length 0 payload).readErr = none from rfl]
      dsimp only
      rw [show (freshS7 length 0 payload).buffer.length - 0 = 0 from rfl]
      rw [if_pos rfl]
    have hrte : s7DataReaderToEnd b (freshS7 length 0 payload) =
        .ok ([], freshS7 length 0 payload) := by
      unfold s7DataReaderToEnd
      rw [show (freshS7 length 0 payload).dataSize + 2 = 1 + 1 from rfl]
      unfold s7ReadToEnd
      rw [hstep]
    rw [hdata]
    exact ⟨rfl, rfl, hdata, ⟨freshS7 length 0 payload, hrte⟩⟩
  · have hfresh : freshS7 length dataSize payload = midS7 length dataSize payload 0 := by
      simp [freshS7, midS7]
      omega
    rw [hfresh]
    rw [s7Data_mid h (by omega)]
    refine ⟨rfl, by rw [List.length_take]; omega, ?_, ?_⟩
    · rw [s7Data_mid h (le_refl dataSize)]
    · refine ⟨midS7 length dataSize payload dataSize, ?_⟩
      unfold s7DataReaderToEnd
      rw [show (midS7 length dataSize payload 0).dataSize = dataSize from rfl]
      rw [@s7ReadToEnd_mid length dataSize b payload h hb dataSize (dataSize + 2) 0 []
        (by omega) (by omega) (by omega)]
      simp

/-- C10: when the upstream fails with a non-EOF error during filling,
`Data()` returns nil (never the partially buffered bytes), `LoadError()`
returns the stored error, and a further `Data()` call still returns nil
with the handle unchanged (the error is write-once). -/
theorem C10_load_error_write_once (length dataSize : Nat) (payload : List Nat)
    (h : payload.length < dataSize) :
    (s7Data (freshS7Bad length dataSize payload)).1 = none ∧
    (s7Data (freshS7Bad length dataSize payload)).2 =
      ⟨length, 7, dataSize, payload, [], true, true, false, some .ioFailure⟩ ∧
    s7LoadError ((s7Data (freshS7Bad length dataSize payload)).2) =
      some .ioFailure ∧
    s7Data ((s7Data (freshS7Bad length dataSize payload)).2) =
      (none, (s7Data (freshS7Bad length dataSize payload)).2) := by
  obtain ⟨n, hn⟩ := s7FillLoop_bad (payload.length + 1) [] payload
    (min dataSize dataSize) dataSize (by simp; omega) (by omega)
    (by simp; omega) (by omega)
  have hchunk : s7ReadChunk dataSize (freshS7Bad length dataSize payload) =
      ((n, some .ioFailure), ⟨length, 7, dataSize, payload, [], true, true, false,
        some .ioFailure⟩) := by
    unfold s7ReadChunk
    rw [if_neg (show ¬(((freshS7Bad length dataSize payload).isFullyRead ||
      ((freshS7Bad length dataSize payload).readErr).isSome) = true) from by
        simp [freshS7Bad])]
    rw [if_neg (show ¬(dataSize ≤
      ((freshS7Bad length dataSize payload).buffer).length) from by
        simp [freshS7Bad]; omega)]
    dsimp only [freshS7Bad]
    rw [hn]
    rfl
  have hdata : s7Data (freshS7Bad length dataSize payload) =
      (none, ⟨length, 7, dataSize, payload, [], true, true, false,
        some .ioFailure⟩) := by
    unfold s7Data
    rw [show (freshS7Bad length dataSize payload).dataSize = dataSize from rfl]
    rw [hchunk]
    rfl
  rw [hdata]
  exact ⟨rfl, rfl, rfl, rfl⟩

theorem C7_lazy_data_equivalence_witness :
    ((3 : Nat) ≤ ([1, 2, 3, 4] : List Nat).length ∧ (1 : Nat) ≤ 2) ∧
    (NewSection7FromDataReader 8 7 [1, 2, 3, 4] false =
      freshS7 8 ((8 + 2 ^ 32 - 5) % 2 ^ 32) [1, 2, 3, 4] ∧
    (s7Data (freshS7 8 3 [1, 2, 3, 4])).1 =
      some (([1, 2, 3, 4] : List Nat).take 3) ∧
    (([1, 2, 3, 4] : List Nat).take 3).length = 3 ∧
    s7Data ((s7Data (freshS7 8 3 [1, 2, 3, 4])).2) =
      (some (([1, 2, 3, 4] : List Nat).take 3),
        (s7Data (freshS7 8 3 [1, 2, 3, 4])).2) ∧
    ∃ stf, s7DataReaderToEnd 2 (freshS7 8 3 [1, 2, 3, 4]) =
      .ok (([1, 2, 3, 4] : List Nat).take 3, stf)) :=
  ⟨⟨by decide, by decide⟩,
    C7_lazy_data_equivalence 8 3 2 [1, 2, 3, 4] (by decide) (by decide)⟩

theorem C10_load_error_write_once_witness :
    ([1, 2] : List Nat).length < 5 ∧
    ((s7Data (freshS7Bad 20 5 [1, 2])).1 = none ∧
    (s7Data (freshS7Bad 20 5 [1, 2])).2 =
      ⟨20, 7, 5, [1, 2], [], true, true, false, some .ioFailure⟩ ∧
    s7LoadError ((s7Data (freshS7Bad 20 5 [1, 2])).2) = some .ioFailure ∧
    s7Data ((s7Data (freshS7Bad 20 5 [1, 2])).2) =
      (none, (s7Data (freshS7Bad 20 5 [1, 2])).2)) :=
  ⟨by decide, C10_load_error_write_once 20 5 [1, 2] (by decide)⟩

end Grib
